import Mathlib

/-
Verification of the `NegativeSampler` minibatch transform
(src/python/dgl/graphbolt/negative_sampler.py) against its specification.

Shallow embedding conventions:
  * a torch 1-D integer tensor is a `List Int` (`Tensor`);
  * a reshaped 2-D tensor is a `List (List Int)` (`Tensor2`);
  * a Python dict is an insertion-ordered association list `List (String × _)`;
  * in-place mutation of the minibatch becomes explicit state passing; a raised
    Python exception becomes `Except.error (msg, mb)` where `mb` is the state of
    the minibatch object at the moment the exception left `_sample` (mutation is
    in place, so a caller observes that partially updated state);
  * the abstract `_sample_with_etype` (raises NotImplementedError in the base
    class, supplied by a concrete subclass) is a function parameter `gen`,
    pure per the spec's generator contract.
-/

set_option autoImplicit false

instance {eps alp : Type} [DecidableEq eps] [DecidableEq alp] : DecidableEq (Except eps alp)
  | Except.error a, Except.error b =>
    if h : a = b then Decidable.isTrue (by rw [h])
    else Decidable.isFalse (fun hh => h (Except.error.inj hh))
  | Except.error _, Except.ok _ => Decidable.isFalse (fun hh => Except.noConfusion hh)
  | Except.ok _, Except.error _ => Decidable.isFalse (fun hh => Except.noConfusion hh)
  | Except.ok a, Except.ok b =>
    if h : a = b then Decidable.isTrue (by rw [h])
    else Decidable.isFalse (fun hh => h (Except.ok.inj hh))

abbrev Tensor := List Int

abbrev Tensor2 := List (List Int)

/-- Modelled from the spec: `LinkPredictionEdgeFormat` lives in `data_format.py`,
which is outside the provided source; §3 of the spec lists four mutually
exclusive tags.  The collation code only ever compares the stored
`output_format` against the four tags with `==`, so a value that is none of
them (possible in Python, and the case the spec's "unrecognized tag" row is
about) is modelled by the extra constructor `other`. -/
inductive LinkPredictionEdgeFormat where
  | INDEPENDENT
  | CONDITIONED
  | HEAD_CONDITIONED
  | TAIL_CONDITIONED
  | other (tag : String)
  deriving DecidableEq, Repr

/-- The `node_pair` field: either a bare `(src, dst)` pair of tensors or a
mapping from edge type to such a pair (spec §3; read at lines 59, 113-117). -/
inductive PairField where
  | single (src dst : Tensor)
  | mapping (m : List (String × Tensor × Tensor))
  deriving DecidableEq, Repr

/-- The `label` field: a bare tensor or a mapping from edge type to tensor. -/
inductive LabelField where
  | single (t : Tensor)
  | mapping (m : List (String × Tensor))
  deriving DecidableEq, Repr

/-- A `negative_head` / `negative_tail` field: a bare reshaped 2-D tensor or a
mapping from edge type to an optional reshaped tensor (entries are written as
`None` for the discarded side under HEAD_/TAIL_CONDITIONED, lines 139, 144,
150-151). -/
inductive NegField where
  | single (t : Tensor2)
  | mapping (m : List (String × Option Tensor2))
  deriving DecidableEq, Repr

/-- Modelled from the spec: the `MiniBatch` class itself is outside the
provided source (spec §3 data model).  `node_pair`, `label`, `negative_head`
and `negative_tail` are the four fields the sampler reads or writes;
`otherFields` stands for every other field of the minibatch, which the
sampler never touches. -/
structure MiniBatch where
  node_pair : Option PairField
  label : Option LabelField
  negative_head : Option NegField
  negative_tail : Option NegField
  otherFields : Int
  deriving DecidableEq, Repr

/-- Model of `torch.ones_like` on a 1-D integer tensor. -/
def ones_like (t : Tensor) : Tensor := List.replicate t.length 1

/-- Model of `torch.zeros_like` on a 1-D integer tensor. -/
def zeros_like (t : Tensor) : Tensor := List.replicate t.length 0

/-- Fuel-driven helper for `chunkRows` (structural recursion on the fuel so
that concrete instances reduce definitionally; the fuel is always at least
the list length at the call site, so it never runs out). -/
def chunkRowsAux (k : Nat) : Nat → Tensor → Tensor2
  | _, [] => []
  | 0, _ :: _ => []
  | fuel + 1, t => t.take k :: chunkRowsAux k fuel (t.drop k)

/-- Row-major chunking of a flat list into rows of length `k`
(the layout `Tensor.view(-1, k)` produces when it succeeds). -/
def chunkRows (k : Nat) (t : Tensor) : Tensor2 :=
  chunkRowsAux k t.length t

/-- Model of `t.view(-1, k)`: succeeds iff `k` is positive and divides the number of
elements, returning the row-major `[len/k, k]` reshape; otherwise torch
raises a RuntimeError, modelled as `none`. -/
def viewRows (negK : Int) (t : Tensor) : Option Tensor2 :=
  if 0 < negK ∧ negK.toNat ∣ t.length then some (chunkRows negK.toNat t)
  else none

/-- Python dict lookup `m[e]` on an insertion-ordered association list. -/
def lookupKey {α : Type} : List (String × α) → String → Option α
  | [], _ => none
  | (key, v) :: rest, e => if key = e then some v else lookupKey rest e

/-- Python dict assignment `m[e] = v`: replaces the value in place if the key
is present, otherwise appends the new entry at the end. -/
def setKey {α : Type} : List (String × α) → String → α → List (String × α)
  | [], e, v => [(e, v)]
  | (key, w) :: rest, e, v =>
    if key = e then (e, v) :: rest else (key, w) :: setKey rest e v

/-- The state a `NegativeSampler` carries: the two construction parameters
(lines 36-38).  `negative_ratio` is called `negativesPerPositive` here. -/
structure NegativeSampler where
  negativesPerPositive : Int
  output_format : LinkPredictionEdgeFormat
  deriving DecidableEq, Repr

/-- Embedding of `NegativeSampler.__init__` (lines 17-38): asserts that the ratio is
positive and stores both parameters. -/
def NegativeSampler.init (negK : Int) (fmt : LinkPredictionEdgeFormat) :
    Except String NegativeSampler :=
  if 0 < negK then Except.ok ⟨negK, fmt⟩
  else Except.error ("Negative_ratio should be positive Integer.")

/-- The generator contract `_sample_with_etype` (lines 78-96): given the
optional edge type and the positive `(src, dst)` pair, return the negative
`(src, dst)` pair.  Abstract in the source; a parameter here. -/
abbrev Gen := Option String → Tensor × Tensor → Tensor × Tensor

/-- Reading the positive pair in `_collate` (lines 113-117):
`minibatch.node_pair[etype]` when an edge type is given, otherwise the bare
`minibatch.node_pair`. -/
def getPos (mb : MiniBatch) (etype : Option String) : Option (Tensor × Tensor) :=
  match etype, mb.node_pair with
  | some e, some (PairField.mapping m) => lookupKey m e
  | none, some (PairField.single s d) => some (s, d)
  | _, _ => none

/-- Writing the (possibly `None`) reshaped negatives back (lines 149-154):
`minibatch.negative_head[etype] = neg_src; minibatch.negative_tail[etype] =
neg_dst` in the mapping case, or direct field assignment in the bare case. -/
def writeNeg (mb : MiniBatch) (etype : Option String) (ns nd : Option Tensor2) :
    Except (String × MiniBatch) MiniBatch :=
  match etype with
  | some e =>
    match mb.negative_head with
    | some (NegField.mapping hm) =>
      let mb1 := { mb with negative_head := some (NegField.mapping (setKey hm e ns)) }
      match mb1.negative_tail with
      | some (NegField.mapping tm) =>
        Except.ok { mb1 with negative_tail := some (NegField.mapping (setKey tm e nd)) }
      | _ => Except.error ("TypeError: item assignment", mb1)
    | _ => Except.error ("TypeError: item assignment", mb)
  | none =>
    Except.ok { mb with negative_head := Option.map NegField.single ns,
                        negative_tail := Option.map NegField.single nd }

/-- Embedding of `NegativeSampler._collate` (lines 98-154), faithful to the branch
structure of the source: read the positive pair; under INDEPENDENT
concatenate positives then negatives and build the 1/0 label; otherwise
reshape the selected side(s) with `view(-1, negative_ratio)` (failure of the
reshape raises before anything is written) and write them back, raising
TypeError on an unrecognized format. -/
def NegativeSampler._collate (self : NegativeSampler) (minibatch : MiniBatch)
    (neg_pairs : Tensor × Tensor) (etype : Option String) :
    Except (String × MiniBatch) MiniBatch :=
  match getPos minibatch etype with
  | none => Except.error ("LookupError", minibatch)
  | some (pos_src, pos_dst) =>
    let neg_src := neg_pairs.1
    let neg_dst := neg_pairs.2
    if self.output_format = LinkPredictionEdgeFormat.INDEPENDENT then
      let pos_label := ones_like pos_src
      let neg_label := zeros_like neg_src
      let src := pos_src ++ neg_src
      let dst := pos_dst ++ neg_dst
      let label := pos_label ++ neg_label
      match etype, minibatch.node_pair with
      | some e, some (PairField.mapping npm) =>
        let mb1 := { minibatch with
          node_pair := some (PairField.mapping (setKey npm e (src, dst))) }
        match mb1.label with
        | some (LabelField.mapping lm) =>
          Except.ok { mb1 with label := some (LabelField.mapping (setKey lm e label)) }
        | _ => Except.error ("TypeError: item assignment", mb1)
      | some _, _ => Except.error ("TypeError: item assignment", minibatch)
      | none, _ =>
        Except.ok { minibatch with
          node_pair := some (PairField.single src dst),
          label := some (LabelField.single label) }
    else if self.output_format = LinkPredictionEdgeFormat.CONDITIONED then
      match viewRows self.negativesPerPositive neg_src with
      | none => Except.error ("RuntimeError", minibatch)
      | some ns =>
        match viewRows self.negativesPerPositive neg_dst with
        | none => Except.error ("RuntimeError", minibatch)
        | some nd => writeNeg minibatch etype (some ns) (some nd)
    else if self.output_format = LinkPredictionEdgeFormat.HEAD_CONDITIONED then
      match viewRows self.negativesPerPositive neg_src with
      | none => Except.error ("RuntimeError", minibatch)
      | some ns => writeNeg minibatch etype (some ns) none
    else if self.output_format = LinkPredictionEdgeFormat.TAIL_CONDITIONED then
      match viewRows self.negativesPerPositive neg_dst with
      | none => Except.error ("RuntimeError", minibatch)
      | some nd => writeNeg minibatch etype none (some nd)
    else
      Except.error ("TypeError: Unsupported output format.", minibatch)

/-- The `for etype, pos_pairs in node_pairs.items()` loop of `_sample`
(lines 66-69), threading the minibatch state through the per-relation
`_collate` calls. -/
def sampleLoop (self : NegativeSampler) (gen : Gen) :
    MiniBatch → List (String × Tensor × Tensor) → Except (String × MiniBatch) MiniBatch
  | mb, [] => Except.ok mb
  | mb, (etype, pp) :: rest =>
    match self._collate mb (gen (some etype) pp) (some etype) with
    | Except.error e => Except.error e
    | Except.ok mb1 => sampleLoop self gen mb1 rest

/-- Embedding of `NegativeSampler._sample` (lines 40-76): assert `node_pair` is present;
on a mapping, initialize the per-format output mappings to empty dicts,
collate every relation, then force the discarded side absent under
HEAD_/TAIL_CONDITIONED; on a bare pair, collate once with no edge type. -/
def NegativeSampler._sample (self : NegativeSampler) (gen : Gen)
    (minibatch : MiniBatch) : Except (String × MiniBatch) MiniBatch :=
  match minibatch.node_pair with
  | none => Except.error ("AssertionError", minibatch)
  | some (PairField.mapping node_pairs) =>
    let mb0 :=
      if self.output_format = LinkPredictionEdgeFormat.INDEPENDENT then
        { minibatch with label := some (LabelField.mapping []) }
      else
        { minibatch with negative_head := some (NegField.mapping []),
                         negative_tail := some (NegField.mapping []) }
    match sampleLoop self gen mb0 node_pairs with
    | Except.error e => Except.error e
    | Except.ok mb1 =>
      let mb2 :=
        if self.output_format = LinkPredictionEdgeFormat.HEAD_CONDITIONED then
          { mb1 with negative_tail := none }
        else mb1
      let mb3 :=
        if self.output_format = LinkPredictionEdgeFormat.TAIL_CONDITIONED then
          { mb2 with negative_head := none }
        else mb2
      Except.ok mb3
  | some (PairField.single src dst) =>
    self._collate minibatch (gen none (src, dst)) none

/-! ### Association-list lemmas -/

theorem lookupKey_cons_self {α : Type} (e : String) (v : α) (rest : List (String × α)) :
    lookupKey ((e, v) :: rest) e = some v := by
  simp [lookupKey]

theorem lookupKey_append_right {α : Type} (a b : List (String × α)) (e : String)
    (h : e ∉ a.map Prod.fst) : lookupKey (a ++ b) e = lookupKey b e := by
  induction a with
  | nil => rfl
  | cons p rest ih =>
    simp only [List.map_cons, List.mem_cons] at h
    push_neg at h
    obtain ⟨h1, h2⟩ := h
    cases p with
    | mk key v =>
      simp only [List.cons_append, lookupKey]
      rw [if_neg (by simpa using fun hh => h1 hh.symm)]
      exact ih h2

theorem setKey_not_mem {α : Type} (m : List (String × α)) (e : String) (v : α)
    (h : e ∉ m.map Prod.fst) : setKey m e v = m ++ [(e, v)] := by
  induction m with
  | nil => rfl
  | cons p rest ih =>
    simp only [List.map_cons, List.mem_cons] at h
    push_neg at h
    obtain ⟨h1, h2⟩ := h
    cases p with
    | mk key w =>
      simp only [setKey]
      rw [if_neg (by simpa using fun hh => h1 hh.symm)]
      simp [ih h2]

theorem setKey_mid {α : Type} (a b : List (String × α)) (e : String) (v w : α)
    (ha : e ∉ a.map Prod.fst) :
    setKey (a ++ (e, v) :: b) e w = a ++ (e, w) :: b := by
  induction a with
  | nil => simp [setKey]
  | cons p rest ih =>
    simp only [List.map_cons, List.mem_cons] at ha
    push_neg at ha
    obtain ⟨h1, h2⟩ := ha
    cases p with
    | mk key x =>
      simp only [List.cons_append, setKey]
      rw [if_neg (by simpa using fun hh => h1 hh.symm)]
      simp [ih h2]

/-! ### `getD` lemmas for `take` and `drop` -/

theorem takeGetD (t : Tensor) : ∀ (j k : Nat), j < k → (t.take k).getD j 0 = t.getD j 0 := by
  induction t with
  | nil => intro j k _; simp
  | cons x xs ih =>
    intro j k hjk
    match k, j with
    | k' + 1, 0 => simp
    | k' + 1, j' + 1 =>
      simp only [List.take_succ_cons, List.getD_cons_succ]
      exact ih j' k' (by omega)

theorem dropGetD (t : Tensor) : ∀ (i j : Nat), (t.drop i).getD j 0 = t.getD (i + j) 0 := by
  induction t with
  | nil => intro i j; simp
  | cons x xs ih =>
    intro i j
    match i with
    | 0 => simp
    | i' + 1 =>
      simp only [List.drop_succ_cons]
      rw [ih i' j]
      have : i' + 1 + j = (i' + j) + 1 := by omega
      rw [this, List.getD_cons_succ]

/-! ### `chunkRows` lemmas -/

theorem chunkRowsAux_nil (k : Nat) (fuel : Nat) : chunkRowsAux k fuel [] = [] := by
  cases fuel <;> rfl

/-- Master lemma: on a flat list of length `n * k` (with enough fuel), the
chunking has `n` rows, each of length `k`, and row `i`, column `j` is the
flat element at `i * k + j`. -/
theorem chunkRowsAux_spec (k : Nat) (hk : 0 < k) :
    ∀ (n fuel : Nat) (t : Tensor), t.length = n * k → t.length ≤ fuel →
      (chunkRowsAux k fuel t).length = n ∧
      (∀ i, i < n →
        ((chunkRowsAux k fuel t).getD i []).length = k ∧
        ∀ j, j < k →
          (((chunkRowsAux k fuel t).getD i []).getD j 0) = t.getD (i * k + j) 0) := by
  intro n
  induction n with
  | zero =>
    intro fuel t hlen _
    have ht : t = [] := List.length_eq_zero.mp (by simpa using hlen)
    subst ht
    rw [chunkRowsAux_nil]
    exact ⟨rfl, fun i hi => absurd hi (by omega)⟩
  | succ n ih =>
    intro fuel t hlen hfuel
    have hlen' : t.length = n * k + k := by rw [hlen]; ring
    have htne : t ≠ [] := by
      intro h; subst h; simp at hlen'; omega
    obtain ⟨x, xs, rfl⟩ := List.exists_cons_of_ne_nil htne
    have hfuel1 : 1 ≤ fuel := by
      have : 0 < (x :: xs).length := by simp
      omega
    obtain ⟨f, rfl⟩ : ∃ f, fuel = f + 1 := ⟨fuel - 1, by omega⟩
    have hstep : chunkRowsAux k (f + 1) (x :: xs) =
        (x :: xs).take k :: chunkRowsAux k f ((x :: xs).drop k) := rfl
    have hdroplen : ((x :: xs).drop k).length = n * k := by
      simp only [List.length_drop]
      omega
    have hdropfuel : ((x :: xs).drop k).length ≤ f := by
      rw [hdroplen]
      have : (x :: xs).length ≤ f + 1 := hfuel
      omega
    obtain ⟨ihlen, ihrow⟩ := ih f ((x :: xs).drop k) hdroplen hdropfuel
    rw [hstep]
    constructor
    · simp [ihlen]
    · intro i hi
      match i with
      | 0 =>
        constructor
        · simp only [List.getD_cons_zero, List.length_take]
          omega
        · intro j hj
          simp only [List.getD_cons_zero, Nat.zero_mul, Nat.zero_add]
          exact takeGetD (x :: xs) j k hj
      | i' + 1 =>
        have hi' : i' < n := by omega
        obtain ⟨hrl, hre⟩ := ihrow i' hi'
        constructor
        · simpa using hrl
        · intro j hj
          have := hre j hj
          simp only [List.getD_cons_succ]
          rw [this, dropGetD (x :: xs) k (i' * k + j)]
          congr 1
          ring

theorem chunkRows_length (k n : Nat) (hk : 0 < k) (t : Tensor) (h : t.length = n * k) :
    (chunkRows k t).length = n :=
  (chunkRowsAux_spec k hk n t.length t h (Nat.le_refl _)).1

theorem chunkRows_row (k n : Nat) (hk : 0 < k) (t : Tensor) (h : t.length = n * k)
    (i : Nat) (hi : i < n) :
    ((chunkRows k t).getD i []).length = k ∧
    ∀ j, j < k → ((chunkRows k t).getD i []).getD j 0 = t.getD (i * k + j) 0 :=
  (chunkRowsAux_spec k hk n t.length t h (Nat.le_refl _)).2 i hi

theorem chunkRows_nil (k : Nat) : chunkRows k [] = [] := rfl

/-! ### Per-relation output entries

These describe, per relation `p = (etype, (pos_src, pos_dst))`, the entry the
collation writes into the corresponding output mapping. -/

/-- INDEPENDENT: the relation's `node_pair` entry after collation
(positives first, then negatives, for src and dst alike). -/
def indepPairEntry (gen : Gen) (p : String × Tensor × Tensor) : String × Tensor × Tensor :=
  (p.1, (p.2.1 ++ (gen (some p.1) p.2).1, p.2.2 ++ (gen (some p.1) p.2).2))

/-- INDEPENDENT: the relation's `label` entry after collation
(ones over the positive prefix, zeros over the negative suffix). -/
def indepLabelEntry (gen : Gen) (p : String × Tensor × Tensor) : String × Tensor :=
  (p.1, ones_like p.2.1 ++ zeros_like (gen (some p.1) p.2).1)

/-- Conditioned formats: the relation's reshaped `negative_head` entry. -/
def condHeadEntry (negK : Int) (gen : Gen) (p : String × Tensor × Tensor) :
    String × Option Tensor2 :=
  (p.1, some (chunkRows negK.toNat (gen (some p.1) p.2).1))

/-- Conditioned formats: the relation's reshaped `negative_tail` entry. -/
def condTailEntry (negK : Int) (gen : Gen) (p : String × Tensor × Tensor) :
    String × Option Tensor2 :=
  (p.1, some (chunkRows negK.toNat (gen (some p.1) p.2).2))

/-- The `None` entry written for the discarded side under
HEAD_/TAIL_CONDITIONED (lines 139, 144 set the local to `None` before the
mapping assignment at lines 150-151). -/
def noneEntry (p : String × Tensor × Tensor) : String × Option Tensor2 :=
  (p.1, none)

theorem map_fst_map {α β : Type} (f : (String × α) → (String × β))
    (hf : ∀ p, (f p).1 = p.1) (l : List (String × α)) :
    (l.map f).map Prod.fst = l.map Prod.fst := by
  induction l with
  | nil => rfl
  | cons p rest ih => simp [hf, ih]

theorem nodup_mid_not_mem {α : Type} (a b : List α) (x : α)
    (h : (a ++ x :: b).Nodup) : x ∉ a ∧ x ∉ b := by
  rw [List.nodup_append] at h
  obtain ⟨-, h2, hd⟩ := h
  refine ⟨fun hx => hd hx (List.mem_cons_self x b), (List.nodup_cons.mp h2).1⟩

/-! ### Evaluating one `_collate` call, per format -/

/-- One INDEPENDENT mapping-case collate call: with the relation present in
`node_pair` (first occurrence) and absent from the label mapping, the call
replaces the relation's `node_pair` entry with the concatenation and appends
the label entry. -/
theorem collate_indep_at (self : NegativeSampler) (mb : MiniBatch)
    (hfmt : self.output_format = LinkPredictionEdgeFormat.INDEPENDENT)
    (e : String) (pp np : Tensor × Tensor)
    (A B : List (String × Tensor × Tensor)) (lm : List (String × Tensor))
    (hnp : mb.node_pair = some (PairField.mapping (A ++ (e, pp) :: B)))
    (hlb : mb.label = some (LabelField.mapping lm))
    (hA : e ∉ A.map Prod.fst) (hlm : e ∉ lm.map Prod.fst) :
    self._collate mb np (some e) = Except.ok
      { mb with
        node_pair := some (PairField.mapping (A ++ (e, (pp.1 ++ np.1, pp.2 ++ np.2)) :: B)),
        label := some (LabelField.mapping (lm ++ [(e, ones_like pp.1 ++ zeros_like np.1)])) } := by
  have hget : getPos mb (some e) = some pp := by
    simp only [getPos, hnp]
    rw [lookupKey_append_right A _ e hA, lookupKey_cons_self]
  rw [NegativeSampler._collate]
  rw [hget]
  simp only [hfmt, if_pos rfl, hnp, hlb, if_true]
  rw [setKey_mid A B e pp (pp.1 ++ np.1, pp.2 ++ np.2) hA]
  rw [setKey_not_mem lm e _ hlm]

/-! ### Evaluating the per-relation loop, per format -/

/-- The whole `for` loop of `_sample` under INDEPENDENT: every relation's
`node_pair` entry is replaced by the concatenated pair and the label mapping
collects one entry per relation, in iteration order. -/
theorem sampleLoop_indep (self : NegativeSampler) (gen : Gen)
    (hfmt : self.output_format = LinkPredictionEdgeFormat.INDEPENDENT) :
    ∀ (ps done : List (String × Tensor × Tensor)) (lm : List (String × Tensor))
      (mb : MiniBatch),
      ((done ++ ps).map Prod.fst).Nodup →
      lm.map Prod.fst = done.map Prod.fst →
      mb.node_pair = some (PairField.mapping (done.map (indepPairEntry gen) ++ ps)) →
      mb.label = some (LabelField.mapping lm) →
      sampleLoop self gen mb ps = Except.ok
        { mb with
          node_pair := some (PairField.mapping ((done ++ ps).map (indepPairEntry gen))),
          label := some (LabelField.mapping (lm ++ ps.map (indepLabelEntry gen))) } := by
  intro ps
  induction ps with
  | nil =>
    intro done lm mb hnd hlm hnp hlb
    simp only [List.append_nil, List.map_nil] at hnp ⊢
    rw [sampleLoop]
    cases mb
    simp only [MiniBatch.mk.injEq] at hnp hlb ⊢
    simp_all
  | cons hd rest ih =>
    intro done lm mb hnd hlm hnp hlb
    obtain ⟨e, pp⟩ := hd
    have hnd' : (done.map Prod.fst ++ e :: rest.map Prod.fst).Nodup := by
      simpa using hnd
    obtain ⟨he_done, he_rest⟩ := nodup_mid_not_mem _ _ _ hnd'
    have he_doneF : e ∉ (done.map (indepPairEntry gen)).map Prod.fst := by
      rw [map_fst_map (indepPairEntry gen) (fun p => rfl) done]
      exact he_done
    have he_lm : e ∉ lm.map Prod.fst := by rw [hlm]; exact he_done
    rw [sampleLoop]
    rw [collate_indep_at self mb hfmt e pp (gen (some e) (e, pp).2)
      (done.map (indepPairEntry gen)) rest lm hnp hlb he_doneF he_lm]
    have hstep := ih (done ++ [(e, pp)]) (lm ++ [indepLabelEntry gen (e, pp)])
      { mb with
        node_pair := some (PairField.mapping
          (done.map (indepPairEntry gen) ++
            (e, (pp.1 ++ (gen (some e) (e, pp).2).1, pp.2 ++ (gen (some e) (e, pp).2).2)) :: rest)),
        label := some (LabelField.mapping (lm ++ [(e, ones_like pp.1 ++ zeros_like (gen (some e) (e, pp).2).1)])) }
      (by simpa using hnd)
      (by simp [hlm, indepLabelEntry])
      (by simp [indepPairEntry])
      (by simp [indepLabelEntry])
    dsimp only
    rw [hstep]
    cases mb
    simp [indepPairEntry, indepLabelEntry, List.append_assoc]

theorem viewRows_pos (negK : Int) (t : Tensor) (hk : 0 < negK)
    (hd : negK.toNat ∣ t.length) :
    viewRows negK t = some (chunkRows negK.toNat t) := by
  simp [viewRows, hk, hd]

theorem viewRows_fail (negK : Int) (t : Tensor)
    (h : ¬ (0 < negK ∧ negK.toNat ∣ t.length)) : viewRows negK t = none := by
  simp only [viewRows, if_neg h]

/-- One CONDITIONED mapping-case collate call: both sides reshape and are
appended to the (fresh-key) head/tail mappings. -/
theorem collate_conditioned_at (self : NegativeSampler) (mb : MiniBatch)
    (hfmt : self.output_format = LinkPredictionEdgeFormat.CONDITIONED)
    (e : String) (pp np : Tensor × Tensor)
    (M : List (String × Tensor × Tensor))
    (hm tm : List (String × Option Tensor2))
    (hnp : mb.node_pair = some (PairField.mapping M))
    (hfound : lookupKey M e = some pp)
    (hhead : mb.negative_head = some (NegField.mapping hm))
    (htail : mb.negative_tail = some (NegField.mapping tm))
    (hhm : e ∉ hm.map Prod.fst) (htm : e ∉ tm.map Prod.fst)
    (hk : 0 < self.negativesPerPositive)
    (h1 : self.negativesPerPositive.toNat ∣ np.1.length)
    (h2 : self.negativesPerPositive.toNat ∣ np.2.length) :
    self._collate mb np (some e) = Except.ok
      { mb with
        negative_head := some (NegField.mapping
          (hm ++ [(e, some (chunkRows self.negativesPerPositive.toNat np.1))])),
        negative_tail := some (NegField.mapping
          (tm ++ [(e, some (chunkRows self.negativesPerPositive.toNat np.2))])) } := by
  obtain ⟨pp1, pp2⟩ := pp
  obtain ⟨np1, np2⟩ := np
  have hget : getPos mb (some e) = some (pp1, pp2) := by
    simp only [getPos, hnp]; exact hfound
  rw [NegativeSampler._collate, hget]
  dsimp only
  rw [hfmt]
  rw [if_neg (by decide), if_pos rfl]
  rw [viewRows_pos _ _ hk h1, viewRows_pos _ _ hk h2]
  dsimp only
  simp only [writeNeg, hhead, htail]
  rw [setKey_not_mem hm e _ hhm, setKey_not_mem tm e _ htm]

/-- One HEAD_CONDITIONED mapping-case collate call: the head side reshapes,
the tail side records a `None` entry. -/
theorem collate_headcond_at (self : NegativeSampler) (mb : MiniBatch)
    (hfmt : self.output_format = LinkPredictionEdgeFormat.HEAD_CONDITIONED)
    (e : String) (pp np : Tensor × Tensor)
    (M : List (String × Tensor × Tensor))
    (hm tm : List (String × Option Tensor2))
    (hnp : mb.node_pair = some (PairField.mapping M))
    (hfound : lookupKey M e = some pp)
    (hhead : mb.negative_head = some (NegField.mapping hm))
    (htail : mb.negative_tail = some (NegField.mapping tm))
    (hhm : e ∉ hm.map Prod.fst) (htm : e ∉ tm.map Prod.fst)
    (hk : 0 < self.negativesPerPositive)
    (h1 : self.negativesPerPositive.toNat ∣ np.1.length) :
    self._collate mb np (some e) = Except.ok
      { mb with
        negative_head := some (NegField.mapping
          (hm ++ [(e, some (chunkRows self.negativesPerPositive.toNat np.1))])),
        negative_tail := some (NegField.mapping (tm ++ [(e, none)])) } := by
  obtain ⟨pp1, pp2⟩ := pp
  obtain ⟨np1, np2⟩ := np
  have hget : getPos mb (some e) = some (pp1, pp2) := by
    simp only [getPos, hnp]; exact hfound
  rw [NegativeSampler._collate, hget]
  dsimp only
  rw [hfmt]
  rw [if_neg (by decide), if_neg (by decide), if_pos rfl]
  rw [viewRows_pos _ _ hk h1]
  dsimp only
  simp only [writeNeg, hhead, htail]
  rw [setKey_not_mem hm e _ hhm, setKey_not_mem tm e _ htm]

/-- One TAIL_CONDITIONED mapping-case collate call: the tail side reshapes,
the head side records a `None` entry. -/
theorem collate_tailcond_at (self : NegativeSampler) (mb : MiniBatch)
    (hfmt : self.output_format = LinkPredictionEdgeFormat.TAIL_CONDITIONED)
    (e : String) (pp np : Tensor × Tensor)
    (M : List (String × Tensor × Tensor))
    (hm tm : List (String × Option Tensor2))
    (hnp : mb.node_pair = some (PairField.mapping M))
    (hfound : lookupKey M e = some pp)
    (hhead : mb.negative_head = some (NegField.mapping hm))
    (htail : mb.negative_tail = some (NegField.mapping tm))
    (hhm : e ∉ hm.map Prod.fst) (htm : e ∉ tm.map Prod.fst)
    (hk : 0 < self.negativesPerPositive)
    (h2 : self.negativesPerPositive.toNat ∣ np.2.length) :
    self._collate mb np (some e) = Except.ok
      { mb with
        negative_head := some (NegField.mapping (hm ++ [(e, none)])),
        negative_tail := some (NegField.mapping
          (tm ++ [(e, some (chunkRows self.negativesPerPositive.toNat np.2))])) } := by
  obtain ⟨pp1, pp2⟩ := pp
  obtain ⟨np1, np2⟩ := np
  have hget : getPos mb (some e) = some (pp1, pp2) := by
    simp only [getPos, hnp]; exact hfound
  rw [NegativeSampler._collate, hget]
  dsimp only
  rw [hfmt]
  rw [if_neg (by decide), if_neg (by decide), if_neg (by decide), if_pos rfl]
  rw [viewRows_pos _ _ hk h2]
  dsimp only
  simp only [writeNeg, hhead, htail]
  rw [setKey_not_mem hm e _ hhm, setKey_not_mem tm e _ htm]

/-- The `for` loop of `_sample` under CONDITIONED: `node_pair` is untouched
and both negative mappings collect one reshaped entry per relation. -/
theorem sampleLoop_conditioned (self : NegativeSampler) (gen : Gen)
    (hfmt : self.output_format = LinkPredictionEdgeFormat.CONDITIONED)
    (hk : 0 < self.negativesPerPositive) :
    ∀ (ps done : List (String × Tensor × Tensor))
      (hm tm : List (String × Option Tensor2)) (mb : MiniBatch),
      ((done ++ ps).map Prod.fst).Nodup →
      hm.map Prod.fst = done.map Prod.fst →
      tm.map Prod.fst = done.map Prod.fst →
      mb.node_pair = some (PairField.mapping (done ++ ps)) →
      mb.negative_head = some (NegField.mapping hm) →
      mb.negative_tail = some (NegField.mapping tm) →
      (∀ p ∈ ps, self.negativesPerPositive.toNat ∣ (gen (some p.1) p.2).1.length ∧
                 self.negativesPerPositive.toNat ∣ (gen (some p.1) p.2).2.length) →
      sampleLoop self gen mb ps = Except.ok
        { mb with
          negative_head := some (NegField.mapping
            (hm ++ ps.map (condHeadEntry self.negativesPerPositive gen))),
          negative_tail := some (NegField.mapping
            (tm ++ ps.map (condTailEntry self.negativesPerPositive gen))) } := by
  intro ps
  induction ps with
  | nil =>
    intro done hm tm mb hnd hhm htm hnp hhead htail hdiv
    rw [sampleLoop]
    cases mb
    simp_all
  | cons hd rest ih =>
    intro done hm tm mb hnd hhm htm hnp hhead htail hdiv
    obtain ⟨e, pp⟩ := hd
    have hnd' : (done.map Prod.fst ++ e :: rest.map Prod.fst).Nodup := by
      simpa using hnd
    obtain ⟨he_done, he_rest⟩ := nodup_mid_not_mem _ _ _ hnd'
    have hfound : lookupKey (done ++ (e, pp) :: rest) e = some pp := by
      rw [lookupKey_append_right done _ e he_done, lookupKey_cons_self]
    have he_hm : e ∉ hm.map Prod.fst := by rw [hhm]; exact he_done
    have he_tm : e ∉ tm.map Prod.fst := by rw [htm]; exact he_done
    rw [sampleLoop]
    rw [collate_conditioned_at self mb hfmt e pp (gen (some e) (e, pp).2)
      (done ++ (e, pp) :: rest) hm tm hnp hfound hhead htail he_hm he_tm hk
      (hdiv (e, pp) (List.mem_cons_self _ _)).1 (hdiv (e, pp) (List.mem_cons_self _ _)).2]
    dsimp only
    have hstep := ih (done ++ [(e, pp)])
      (hm ++ [condHeadEntry self.negativesPerPositive gen (e, pp)])
      (tm ++ [condTailEntry self.negativesPerPositive gen (e, pp)])
      { mb with
        negative_head := some (NegField.mapping
          (hm ++ [(e, some (chunkRows self.negativesPerPositive.toNat (gen (some e) (e, pp).2).1))])),
        negative_tail := some (NegField.mapping
          (tm ++ [(e, some (chunkRows self.negativesPerPositive.toNat (gen (some e) (e, pp).2).2))])) }
      (by simpa using hnd)
      (by simp [hhm, condHeadEntry])
      (by simp [htm, condTailEntry])
      (by simp [hnp])
      (by simp [condHeadEntry])
      (by simp [condTailEntry])
      (fun p hp => hdiv p (List.mem_cons_of_mem _ hp))
    rw [hstep]
    cases mb
    simp [condHeadEntry, condTailEntry, List.append_assoc]

/-- The `for` loop of `_sample` under HEAD_CONDITIONED: the head mapping
collects reshaped entries, the tail mapping collects `None` entries. -/
theorem sampleLoop_headcond (self : NegativeSampler) (gen : Gen)
    (hfmt : self.output_format = LinkPredictionEdgeFormat.HEAD_CONDITIONED)
    (hk : 0 < self.negativesPerPositive) :
    ∀ (ps done : List (String × Tensor × Tensor))
      (hm tm : List (String × Option Tensor2)) (mb : MiniBatch),
      ((done ++ ps).map Prod.fst).Nodup →
      hm.map Prod.fst = done.map Prod.fst →
      tm.map Prod.fst = done.map Prod.fst →
      mb.node_pair = some (PairField.mapping (done ++ ps)) →
      mb.negative_head = some (NegField.mapping hm) →
      mb.negative_tail = some (NegField.mapping tm) →
      (∀ p ∈ ps, self.negativesPerPositive.toNat ∣ (gen (some p.1) p.2).1.length) →
      sampleLoop self gen mb ps = Except.ok
        { mb with
          negative_head := some (NegField.mapping
            (hm ++ ps.map (condHeadEntry self.negativesPerPositive gen))),
          negative_tail := some (NegField.mapping (tm ++ ps.map noneEntry)) } := by
  intro ps
  induction ps with
  | nil =>
    intro done hm tm mb hnd hhm htm hnp hhead htail hdiv
    rw [sampleLoop]
    cases mb
    simp_all
  | cons hd rest ih =>
    intro done hm tm mb hnd hhm htm hnp hhead htail hdiv
    obtain ⟨e, pp⟩ := hd
    have hnd' : (done.map Prod.fst ++ e :: rest.map Prod.fst).Nodup := by
      simpa using hnd
    obtain ⟨he_done, he_rest⟩ := nodup_mid_not_mem _ _ _ hnd'
    have hfound : lookupKey (done ++ (e, pp) :: rest) e = some pp := by
      rw [lookupKey_append_right done _ e he_done, lookupKey_cons_self]
    have he_hm : e ∉ hm.map Prod.fst := by rw [hhm]; exact he_done
    have he_tm : e ∉ tm.map Prod.fst := by rw [htm]; exact he_done
    rw [sampleLoop]
    rw [collate_headcond_at self mb hfmt e pp (gen (some e) (e, pp).2)
      (done ++ (e, pp) :: rest) hm tm hnp hfound hhead htail he_hm he_tm hk
      (hdiv (e, pp) (List.mem_cons_self _ _))]
    dsimp only
    have hstep := ih (done ++ [(e, pp)])
      (hm ++ [condHeadEntry self.negativesPerPositive gen (e, pp)])
      (tm ++ [noneEntry (e, pp)])
      { mb with
        negative_head := some (NegField.mapping
          (hm ++ [(e, some (chunkRows self.negativesPerPositive.toNat (gen (some e) (e, pp).2).1))])),
        negative_tail := some (NegField.mapping (tm ++ [(e, none)])) }
      (by simpa using hnd)
      (by simp [hhm, condHeadEntry])
      (by simp [htm, noneEntry])
      (by simp [hnp])
      (by simp [condHeadEntry])
      (by simp [noneEntry])
      (fun p hp => hdiv p (List.mem_cons_of_mem _ hp))
    rw [hstep]
    cases mb
    simp [condHeadEntry, noneEntry, List.append_assoc]

/-- The `for` loop of `_sample` under TAIL_CONDITIONED: the tail mapping
collects reshaped entries, the head mapping collects `None` entries. -/
theorem sampleLoop_tailcond (self : NegativeSampler) (gen : Gen)
    (hfmt : self.output_format = LinkPredictionEdgeFormat.TAIL_CONDITIONED)
    (hk : 0 < self.negativesPerPositive) :
    ∀ (ps done : List (String × Tensor × Tensor))
      (hm tm : List (String × Option Tensor2)) (mb : MiniBatch),
      ((done ++ ps).map Prod.fst).Nodup →
      hm.map Prod.fst = done.map Prod.fst →
      tm.map Prod.fst = done.map Prod.fst →
      mb.node_pair = some (PairField.mapping (done ++ ps)) →
      mb.negative_head = some (NegField.mapping hm) →
      mb.negative_tail = some (NegField.mapping tm) →
      (∀ p ∈ ps, self.negativesPerPositive.toNat ∣ (gen (some p.1) p.2).2.length) →
      sampleLoop self gen mb ps = Except.ok
        { mb with
          negative_head := some (NegField.mapping (hm ++ ps.map noneEntry)),
          negative_tail := some (NegField.mapping
            (tm ++ ps.map (condTailEntry self.negativesPerPositive gen))) } := by
  intro ps
  induction ps with
  | nil =>
    intro done hm tm mb hnd hhm htm hnp hhead htail hdiv
    rw [sampleLoop]
    cases mb
    simp_all
  | cons hd rest ih =>
    intro done hm tm mb hnd hhm htm hnp hhead htail hdiv
    obtain ⟨e, pp⟩ := hd
    have hnd' : (done.map Prod.fst ++ e :: rest.map Prod.fst).Nodup := by
      simpa using hnd
    obtain ⟨he_done, he_rest⟩ := nodup_mid_not_mem _ _ _ hnd'
    have hfound : lookupKey (done ++ (e, pp) :: rest) e = some pp := by
      rw [lookupKey_append_right done _ e he_done, lookupKey_cons_self]
    have he_hm : e ∉ hm.map Prod.fst := by rw [hhm]; exact he_done
    have he_tm : e ∉ tm.map Prod.fst := by rw [htm]; exact he_done
    rw [sampleLoop]
    rw [collate_tailcond_at self mb hfmt e pp (gen (some e) (e, pp).2)
      (done ++ (e, pp) :: rest) hm tm hnp hfound hhead htail he_hm he_tm hk
      (hdiv (e, pp) (List.mem_cons_self _ _))]
    dsimp only
    have hstep := ih (done ++ [(e, pp)])
      (hm ++ [noneEntry (e, pp)])
      (tm ++ [condTailEntry self.negativesPerPositive gen (e, pp)])
      { mb with
        negative_head := some (NegField.mapping (hm ++ [(e, none)])),
        negative_tail := some (NegField.mapping
          (tm ++ [(e, some (chunkRows self.negativesPerPositive.toNat (gen (some e) (e, pp).2).2))])) }
      (by simpa using hnd)
      (by simp [hhm, noneEntry])
      (by simp [htm, condTailEntry])
      (by simp [hnp])
      (by simp [noneEntry])
      (by simp [condTailEntry])
      (fun p hp => hdiv p (List.mem_cons_of_mem _ hp))
    rw [hstep]
    cases mb
    simp [condTailEntry, noneEntry, List.append_assoc]

/-! ### `_sample`, single-relation path -/

/-- The bare (non-mapping) path of `_sample` is a single `_collate` call with
no edge type (line 75). -/
theorem sample_single (self : NegativeSampler) (gen : Gen) (mb : MiniBatch)
    (src dst : Tensor) (hnp : mb.node_pair = some (PairField.single src dst)) :
    self._sample gen mb = self._collate mb (gen none (src, dst)) none := by
  rw [NegativeSampler._sample]
  simp only [hnp]

theorem collate_indep_single (self : NegativeSampler) (mb : MiniBatch)
    (hfmt : self.output_format = LinkPredictionEdgeFormat.INDEPENDENT)
    (src dst : Tensor) (np : Tensor × Tensor)
    (hnp : mb.node_pair = some (PairField.single src dst)) :
    self._collate mb np none = Except.ok
      { mb with
        node_pair := some (PairField.single (src ++ np.1) (dst ++ np.2)),
        label := some (LabelField.single (ones_like src ++ zeros_like np.1)) } := by
  obtain ⟨np1, np2⟩ := np
  have hget : getPos mb none = some (src, dst) := by
    simp only [getPos, hnp]
  rw [NegativeSampler._collate, hget]
  dsimp only
  rw [hfmt]
  rw [if_pos rfl]

theorem collate_cond_single (self : NegativeSampler) (mb : MiniBatch)
    (hfmt : self.output_format = LinkPredictionEdgeFormat.CONDITIONED)
    (src dst : Tensor) (np : Tensor × Tensor)
    (hnp : mb.node_pair = some (PairField.single src dst))
    (hk : 0 < self.negativesPerPositive)
    (h1 : self.negativesPerPositive.toNat ∣ np.1.length)
    (h2 : self.negativesPerPositive.toNat ∣ np.2.length) :
    self._collate mb np none = Except.ok
      { mb with
        negative_head := some (NegField.single (chunkRows self.negativesPerPositive.toNat np.1)),
        negative_tail := some (NegField.single (chunkRows self.negativesPerPositive.toNat np.2)) } := by
  obtain ⟨np1, np2⟩ := np
  have hget : getPos mb none = some (src, dst) := by
    simp only [getPos, hnp]
  rw [NegativeSampler._collate, hget]
  dsimp only
  rw [hfmt]
  rw [if_neg (by decide), if_pos rfl]
  rw [viewRows_pos _ _ hk h1, viewRows_pos _ _ hk h2]
  dsimp only
  simp [writeNeg]

theorem collate_headcond_single (self : NegativeSampler) (mb : MiniBatch)
    (hfmt : self.output_format = LinkPredictionEdgeFormat.HEAD_CONDITIONED)
    (src dst : Tensor) (np : Tensor × Tensor)
    (hnp : mb.node_pair = some (PairField.single src dst))
    (hk : 0 < self.negativesPerPositive)
    (h1 : self.negativesPerPositive.toNat ∣ np.1.length) :
    self._collate mb np none = Except.ok
      { mb with
        negative_head := some (NegField.single (chunkRows self.negativesPerPositive.toNat np.1)),
        negative_tail := none } := by
  obtain ⟨np1, np2⟩ := np
  have hget : getPos mb none = some (src, dst) := by
    simp only [getPos, hnp]
  rw [NegativeSampler._collate, hget]
  dsimp only
  rw [hfmt]
  rw [if_neg (by decide), if_neg (by decide), if_pos rfl]
  rw [viewRows_pos _ _ hk h1]
  dsimp only
  simp [writeNeg]

theorem collate_tailcond_single (self : NegativeSampler) (mb : MiniBatch)
    (hfmt : self.output_format = LinkPredictionEdgeFormat.TAIL_CONDITIONED)
    (src dst : Tensor) (np : Tensor × Tensor)
    (hnp : mb.node_pair = some (PairField.single src dst))
    (hk : 0 < self.negativesPerPositive)
    (h2 : self.negativesPerPositive.toNat ∣ np.2.length) :
    self._collate mb np none = Except.ok
      { mb with
        negative_head := none,
        negative_tail := some (NegField.single (chunkRows self.negativesPerPositive.toNat np.2)) } := by
  obtain ⟨np1, np2⟩ := np
  have hget : getPos mb none = some (src, dst) := by
    simp only [getPos, hnp]
  rw [NegativeSampler._collate, hget]
  dsimp only
  rw [hfmt]
  rw [if_neg (by decide), if_neg (by decide), if_neg (by decide), if_pos rfl]
  rw [viewRows_pos _ _ hk h2]
  dsimp only
  simp [writeNeg]

theorem collate_cond_fail_single (self : NegativeSampler) (mb : MiniBatch)
    (hfmt : self.output_format = LinkPredictionEdgeFormat.CONDITIONED)
    (src dst : Tensor) (np : Tensor × Tensor)
    (hnp : mb.node_pair = some (PairField.single src dst))
    (hfail : ¬ (0 < self.negativesPerPositive ∧
                self.negativesPerPositive.toNat ∣ np.1.length) ∨
             ((0 < self.negativesPerPositive ∧
               self.negativesPerPositive.toNat ∣ np.1.length) ∧
              ¬ (0 < self.negativesPerPositive ∧
                 self.negativesPerPositive.toNat ∣ np.2.length))) :
    self._collate mb np none = Except.error ("RuntimeError", mb) := by
  obtain ⟨np1, np2⟩ := np
  have hget : getPos mb none = some (src, dst) := by
    simp only [getPos, hnp]
  rw [NegativeSampler._collate, hget]
  dsimp only
  rw [hfmt]
  rw [if_neg (by decide), if_pos rfl]
  rcases hfail with h | ⟨h1, h2⟩
  · rw [viewRows_fail _ _ h]
  · obtain ⟨hk, hdvd⟩ := h1
    rw [viewRows_pos _ _ hk hdvd, viewRows_fail _ _ h2]

theorem collate_unknown_single (self : NegativeSampler) (mb : MiniBatch)
    (tag : String)
    (hfmt : self.output_format = LinkPredictionEdgeFormat.other tag)
    (src dst : Tensor) (np : Tensor × Tensor)
    (hnp : mb.node_pair = some (PairField.single src dst)) :
    self._collate mb np none =
      Except.error ("TypeError: Unsupported output format.", mb) := by
  obtain ⟨np1, np2⟩ := np
  have hget : getPos mb none = some (src, dst) := by
    simp only [getPos, hnp]
  rw [NegativeSampler._collate, hget]
  dsimp only
  rw [hfmt]
  rw [if_neg (by simp), if_neg (by simp), if_neg (by simp), if_neg (by simp)]

theorem collate_unknown_mapping (self : NegativeSampler) (mb : MiniBatch)
    (tag : String)
    (hfmt : self.output_format = LinkPredictionEdgeFormat.other tag)
    (e : String) (pp np : Tensor × Tensor)
    (M : List (String × Tensor × Tensor))
    (hnp : mb.node_pair = some (PairField.mapping M))
    (hfound : lookupKey M e = some pp) :
    self._collate mb np (some e) =
      Except.error ("TypeError: Unsupported output format.", mb) := by
  obtain ⟨pp1, pp2⟩ := pp
  obtain ⟨np1, np2⟩ := np
  have hget : getPos mb (some e) = some (pp1, pp2) := by
    simp only [getPos, hnp]; exact hfound
  rw [NegativeSampler._collate, hget]
  dsimp only
  rw [hfmt]
  rw [if_neg (by simp), if_neg (by simp), if_neg (by simp), if_neg (by simp)]

/-! ### `_sample`, mapping path, per format -/

theorem sample_indep_mapping (self : NegativeSampler) (gen : Gen)
    (hfmt : self.output_format = LinkPredictionEdgeFormat.INDEPENDENT)
    (ps : List (String × Tensor × Tensor)) (mb : MiniBatch)
    (hnd : (ps.map Prod.fst).Nodup)
    (hnp : mb.node_pair = some (PairField.mapping ps)) :
    self._sample gen mb = Except.ok
      { mb with
        node_pair := some (PairField.mapping (ps.map (indepPairEntry gen))),
        label := some (LabelField.mapping (ps.map (indepLabelEntry gen))) } := by
  obtain ⟨np0, lb0, nh0, nt0, of0⟩ := mb
  replace hnp : np0 = some (PairField.mapping ps) := hnp
  subst hnp
  rw [NegativeSampler._sample]
  dsimp only
  rw [hfmt]
  rw [if_pos rfl]
  rw [sampleLoop_indep self gen hfmt ps [] []
    ⟨some (PairField.mapping ps), some (LabelField.mapping []), nh0, nt0, of0⟩
    (by simpa using hnd) rfl (by simp) rfl]
  dsimp only
  rw [if_neg (by decide), if_neg (by decide)]
  simp

theorem sample_conditioned_mapping (self : NegativeSampler) (gen : Gen)
    (hfmt : self.output_format = LinkPredictionEdgeFormat.CONDITIONED)
    (hk : 0 < self.negativesPerPositive)
    (ps : List (String × Tensor × Tensor)) (mb : MiniBatch)
    (hnd : (ps.map Prod.fst).Nodup)
    (hnp : mb.node_pair = some (PairField.mapping ps))
    (hdiv : ∀ p ∈ ps, self.negativesPerPositive.toNat ∣ (gen (some p.1) p.2).1.length ∧
                      self.negativesPerPositive.toNat ∣ (gen (some p.1) p.2).2.length) :
    self._sample gen mb = Except.ok
      { mb with
        negative_head := some (NegField.mapping
          (ps.map (condHeadEntry self.negativesPerPositive gen))),
        negative_tail := some (NegField.mapping
          (ps.map (condTailEntry self.negativesPerPositive gen))) } := by
  obtain ⟨np0, lb0, nh0, nt0, of0⟩ := mb
  replace hnp : np0 = some (PairField.mapping ps) := hnp
  subst hnp
  rw [NegativeSampler._sample]
  dsimp only
  rw [hfmt]
  rw [if_neg (by decide)]
  rw [sampleLoop_conditioned self gen hfmt hk ps [] [] []
    ⟨some (PairField.mapping ps), lb0, some (NegField.mapping []),
      some (NegField.mapping []), of0⟩
    (by simpa using hnd) rfl rfl (by simp) rfl rfl hdiv]
  dsimp only
  rw [if_neg (by decide), if_neg (by decide)]
  simp

theorem sample_headcond_mapping (self : NegativeSampler) (gen : Gen)
    (hfmt : self.output_format = LinkPredictionEdgeFormat.HEAD_CONDITIONED)
    (hk : 0 < self.negativesPerPositive)
    (ps : List (String × Tensor × Tensor)) (mb : MiniBatch)
    (hnd : (ps.map Prod.fst).Nodup)
    (hnp : mb.node_pair = some (PairField.mapping ps))
    (hdiv : ∀ p ∈ ps, self.negativesPerPositive.toNat ∣ (gen (some p.1) p.2).1.length) :
    self._sample gen mb = Except.ok
      { mb with
        negative_head := some (NegField.mapping
          (ps.map (condHeadEntry self.negativesPerPositive gen))),
        negative_tail := none } := by
  obtain ⟨np0, lb0, nh0, nt0, of0⟩ := mb
  replace hnp : np0 = some (PairField.mapping ps) := hnp
  subst hnp
  rw [NegativeSampler._sample]
  dsimp only
  rw [hfmt]
  rw [if_neg (by decide)]
  rw [sampleLoop_headcond self gen hfmt hk ps [] [] []
    ⟨some (PairField.mapping ps), lb0, some (NegField.mapping []),
      some (NegField.mapping []), of0⟩
    (by simpa using hnd) rfl rfl (by simp) rfl rfl hdiv]
  dsimp only
  rw [if_pos rfl, if_neg (by decide)]
  simp

theorem sample_tailcond_mapping (self : NegativeSampler) (gen : Gen)
    (hfmt : self.output_format = LinkPredictionEdgeFormat.TAIL_CONDITIONED)
    (hk : 0 < self.negativesPerPositive)
    (ps : List (String × Tensor × Tensor)) (mb : MiniBatch)
    (hnd : (ps.map Prod.fst).Nodup)
    (hnp : mb.node_pair = some (PairField.mapping ps))
    (hdiv : ∀ p ∈ ps, self.negativesPerPositive.toNat ∣ (gen (some p.1) p.2).2.length) :
    self._sample gen mb = Except.ok
      { mb with
        negative_head := none,
        negative_tail := some (NegField.mapping
          (ps.map (condTailEntry self.negativesPerPositive gen))) } := by
  obtain ⟨np0, lb0, nh0, nt0, of0⟩ := mb
  replace hnp : np0 = some (PairField.mapping ps) := hnp
  subst hnp
  rw [NegativeSampler._sample]
  dsimp only
  rw [hfmt]
  rw [if_neg (by decide)]
  rw [sampleLoop_tailcond self gen hfmt hk ps [] [] []
    ⟨some (PairField.mapping ps), lb0, some (NegField.mapping []),
      some (NegField.mapping []), of0⟩
    (by simpa using hnd) rfl rfl (by simp) rfl rfl hdiv]
  dsimp only
  simp

theorem sample_unknown_mapping_error (self : NegativeSampler) (gen : Gen)
    (tag : String)
    (hfmt : self.output_format = LinkPredictionEdgeFormat.other tag)
    (e : String) (pp : Tensor × Tensor)
    (rest : List (String × Tensor × Tensor)) (mb : MiniBatch)
    (hnp : mb.node_pair = some (PairField.mapping ((e, pp) :: rest))) :
    self._sample gen mb = Except.error ("TypeError: Unsupported output format.",
      { mb with negative_head := some (NegField.mapping []),
                negative_tail := some (NegField.mapping []) }) := by
  obtain ⟨np0, lb0, nh0, nt0, of0⟩ := mb
  replace hnp : np0 = some (PairField.mapping ((e, pp) :: rest)) := hnp
  subst hnp
  rw [NegativeSampler._sample]
  dsimp only
  rw [hfmt]
  rw [if_neg (by simp)]
  rw [sampleLoop]
  rw [collate_unknown_mapping self
    ⟨some (PairField.mapping ((e, pp) :: rest)), lb0, some (NegField.mapping []),
      some (NegField.mapping []), of0⟩
    tag hfmt e pp (gen (some e) (e, pp).2) ((e, pp) :: rest) rfl
    (lookupKey_cons_self e pp rest)]

theorem sample_unknown_mapping_empty (self : NegativeSampler) (gen : Gen)
    (tag : String)
    (hfmt : self.output_format = LinkPredictionEdgeFormat.other tag)
    (mb : MiniBatch)
    (hnp : mb.node_pair = some (PairField.mapping [])) :
    self._sample gen mb = Except.ok
      { mb with negative_head := some (NegField.mapping []),
                negative_tail := some (NegField.mapping []) } := by
  obtain ⟨np0, lb0, nh0, nt0, of0⟩ := mb
  replace hnp : np0 = some (PairField.mapping []) := hnp
  subst hnp
  rw [NegativeSampler._sample]
  dsimp only
  rw [hfmt]
  rw [if_neg (by simp)]
  rw [sampleLoop]
  dsimp only
  rw [if_neg (by simp), if_neg (by simp)]

/-! ### Frame lemmas: which fields a call can touch -/

theorem writeNeg_frame (mb : MiniBatch) (et : Option String) (ns nd : Option Tensor2)
    (mb' : MiniBatch) (h : writeNeg mb et ns nd = Except.ok mb') :
    mb'.node_pair = mb.node_pair ∧ mb'.label = mb.label ∧
    mb'.otherFields = mb.otherFields := by
  cases et with
  | none =>
    simp only [writeNeg, Except.ok.injEq] at h
    subst h
    exact ⟨rfl, rfl, rfl⟩
  | some e =>
    simp only [writeNeg] at h
    cases hh : mb.negative_head with
    | none => rw [hh] at h; simp at h
    | some nf =>
      cases nf with
      | single t => rw [hh] at h; simp at h
      | mapping hm =>
        rw [hh] at h
        dsimp only at h
        cases ht : mb.negative_tail with
        | none => rw [ht] at h; simp at h
        | some nt =>
          cases nt with
          | single t => rw [ht] at h; simp at h
          | mapping tm =>
            rw [ht] at h
            simp only [Except.ok.injEq] at h
            subst h
            exact ⟨rfl, rfl, rfl⟩

theorem collate_frame (self : NegativeSampler) (mb : MiniBatch) (np : Tensor × Tensor)
    (et : Option String) (mb' : MiniBatch) (h : self._collate mb np et = Except.ok mb') :
    mb'.otherFields = mb.otherFields ∧
    (self.output_format = LinkPredictionEdgeFormat.INDEPENDENT →
      mb'.negative_head = mb.negative_head ∧ mb'.negative_tail = mb.negative_tail) ∧
    (self.output_format ≠ LinkPredictionEdgeFormat.INDEPENDENT →
      mb'.node_pair = mb.node_pair ∧ mb'.label = mb.label) := by
  rw [NegativeSampler._collate] at h
  cases hg : getPos mb et with
  | none => rw [hg] at h; simp at h
  | some pp =>
    obtain ⟨p1, p2⟩ := pp
    rw [hg] at h
    dsimp only at h
    by_cases hf : self.output_format = LinkPredictionEdgeFormat.INDEPENDENT
    · rw [if_pos hf] at h
      cases et with
      | none =>
        dsimp only at h
        simp only [Except.ok.injEq] at h
        subst h
        exact ⟨rfl, fun _ => ⟨rfl, rfl⟩, fun hne => absurd hf hne⟩
      | some e =>
        cases hn : mb.node_pair with
        | none => rw [hn] at h; dsimp only at h; simp at h
        | some pf =>
          cases pf with
          | single a b => rw [hn] at h; dsimp only at h; simp at h
          | mapping npm =>
            rw [hn] at h
            dsimp only at h
            cases hl : mb.label with
            | none => rw [hl] at h; dsimp only at h; simp at h
            | some lf =>
              cases lf with
              | single t => rw [hl] at h; dsimp only at h; simp at h
              | mapping lm =>
                rw [hl] at h
                dsimp only at h
                simp only [Except.ok.injEq] at h
                subst h
                exact ⟨rfl, fun _ => ⟨rfl, rfl⟩, fun hne => absurd hf hne⟩
    · rw [if_neg hf] at h
      by_cases hc : self.output_format = LinkPredictionEdgeFormat.CONDITIONED
      · rw [if_pos hc] at h
        cases hv1 : viewRows self.negativesPerPositive np.1 with
        | none => rw [hv1] at h; simp at h
        | some ns =>
          rw [hv1] at h
          dsimp only at h
          cases hv2 : viewRows self.negativesPerPositive np.2 with
          | none => rw [hv2] at h; simp at h
          | some nd =>
            rw [hv2] at h
            dsimp only at h
            obtain ⟨h1, h2, h3⟩ := writeNeg_frame mb et _ _ mb' h
            exact ⟨h3, fun hi => absurd hi hf, fun _ => ⟨h1, h2⟩⟩
      · rw [if_neg hc] at h
        by_cases hhc : self.output_format = LinkPredictionEdgeFormat.HEAD_CONDITIONED
        · rw [if_pos hhc] at h
          cases hv1 : viewRows self.negativesPerPositive np.1 with
          | none => rw [hv1] at h; simp at h
          | some ns =>
            rw [hv1] at h
            dsimp only at h
            obtain ⟨h1, h2, h3⟩ := writeNeg_frame mb et _ _ mb' h
            exact ⟨h3, fun hi => absurd hi hf, fun _ => ⟨h1, h2⟩⟩
        · rw [if_neg hhc] at h
          by_cases htc : self.output_format = LinkPredictionEdgeFormat.TAIL_CONDITIONED
          · rw [if_pos htc] at h
            cases hv2 : viewRows self.negativesPerPositive np.2 with
            | none => rw [hv2] at h; simp at h
            | some nd =>
              rw [hv2] at h
              dsimp only at h
              obtain ⟨h1, h2, h3⟩ := writeNeg_frame mb et _ _ mb' h
              exact ⟨h3, fun hi => absurd hi hf, fun _ => ⟨h1, h2⟩⟩
          · rw [if_neg htc] at h
            simp at h

theorem sampleLoop_frame (self : NegativeSampler) (gen : Gen) :
    ∀ (ps : List (String × Tensor × Tensor)) (mb mb' : MiniBatch),
      sampleLoop self gen mb ps = Except.ok mb' →
      mb'.otherFields = mb.otherFields ∧
      (self.output_format = LinkPredictionEdgeFormat.INDEPENDENT →
        mb'.negative_head = mb.negative_head ∧ mb'.negative_tail = mb.negative_tail) ∧
      (self.output_format ≠ LinkPredictionEdgeFormat.INDEPENDENT →
        mb'.node_pair = mb.node_pair ∧ mb'.label = mb.label) := by
  intro ps
  induction ps with
  | nil =>
    intro mb mb' h
    rw [sampleLoop] at h
    simp only [Except.ok.injEq] at h
    subst h
    exact ⟨rfl, fun _ => ⟨rfl, rfl⟩, fun _ => ⟨rfl, rfl⟩⟩
  | cons hd rest ih =>
    intro mb mb' h
    obtain ⟨e, pp⟩ := hd
    rw [sampleLoop] at h
    cases hc : self._collate mb (gen (some e) (e, pp).2) (some e) with
    | error err => rw [hc] at h; simp at h
    | ok mb1 =>
      rw [hc] at h
      dsimp only at h
      obtain ⟨i1, i2, i3⟩ := ih mb1 mb' h
      obtain ⟨c1, c2, c3⟩ := collate_frame self mb _ _ mb1 hc
      refine ⟨i1.trans c1, fun hi => ?_, fun hne => ?_⟩
      · obtain ⟨a1, a2⟩ := i2 hi
        obtain ⟨b1, b2⟩ := c2 hi
        exact ⟨a1.trans b1, a2.trans b2⟩
      · obtain ⟨a1, a2⟩ := i3 hne
        obtain ⟨b1, b2⟩ := c3 hne
        exact ⟨a1.trans b1, a2.trans b2⟩

/-! ### Congruence: the transform reads nothing but `node_pair`
(plus, on the mapping path, the freshly reset output containers) -/

/-- Agreement of two minibatches on every field the transform's output can
depend on under format `fmt`: `node_pair` always; `label` only under
INDEPENDENT; the negative containers only under the other formats. -/
def SameView (fmt : LinkPredictionEdgeFormat) (a b : MiniBatch) : Prop :=
  a.node_pair = b.node_pair ∧
  (fmt = LinkPredictionEdgeFormat.INDEPENDENT → a.label = b.label) ∧
  (fmt ≠ LinkPredictionEdgeFormat.INDEPENDENT →
    a.negative_head = b.negative_head ∧ a.negative_tail = b.negative_tail)

/-- Relating two transform results: success with agreeing outputs, or failure
with the same error message. -/
def ResultRel (fmt : LinkPredictionEdgeFormat) :
    Except (String × MiniBatch) MiniBatch → Except (String × MiniBatch) MiniBatch → Prop
  | Except.ok a, Except.ok b => SameView fmt a b
  | Except.error (m1, _), Except.error (m2, _) => m1 = m2
  | _, _ => False

theorem collate_congr_single (self : NegativeSampler) (np : Tensor × Tensor)
    (a b : MiniBatch) (hnp : a.node_pair = b.node_pair) :
    ResultRel self.output_format (self._collate a np none) (self._collate b np none) := by
  obtain ⟨np1, np2⟩ := np
  have hg : getPos a none = getPos b none := by
    simp only [getPos, hnp]
  rw [NegativeSampler._collate, NegativeSampler._collate, hg]
  cases hgb : getPos b none with
  | none => exact rfl
  | some pp =>
    obtain ⟨p1, p2⟩ := pp
    dsimp only
    by_cases hf : self.output_format = LinkPredictionEdgeFormat.INDEPENDENT
    · rw [if_pos hf, if_pos hf]
      exact ⟨by simp, fun _ => by simp, fun hne => absurd hf hne⟩
    · rw [if_neg hf, if_neg hf]
      by_cases hc : self.output_format = LinkPredictionEdgeFormat.CONDITIONED
      · rw [if_pos hc, if_pos hc]
        cases viewRows self.negativesPerPositive np1 with
        | none => exact rfl
        | some ns =>
          dsimp only
          cases viewRows self.negativesPerPositive np2 with
          | none => exact rfl
          | some nd =>
            dsimp only [writeNeg]
            exact ⟨by simp [hnp], fun hi => absurd hi hf, fun _ => by simp⟩
      · rw [if_neg hc, if_neg hc]
        by_cases hhc : self.output_format = LinkPredictionEdgeFormat.HEAD_CONDITIONED
        · rw [if_pos hhc, if_pos hhc]
          cases viewRows self.negativesPerPositive np1 with
          | none => exact rfl
          | some ns =>
            dsimp only [writeNeg]
            exact ⟨by simp [hnp], fun hi => absurd hi hf, fun _ => by simp⟩
        · rw [if_neg hhc, if_neg hhc]
          by_cases htc : self.output_format = LinkPredictionEdgeFormat.TAIL_CONDITIONED
          · rw [if_pos htc, if_pos htc]
            cases viewRows self.negativesPerPositive np2 with
            | none => exact rfl
            | some nd =>
              dsimp only [writeNeg]
              exact ⟨by simp [hnp], fun hi => absurd hi hf, fun _ => by simp⟩
          · rw [if_neg htc, if_neg htc]
            exact rfl

theorem collate_congr_mapping (self : NegativeSampler) (np : Tensor × Tensor)
    (e : String) (a b : MiniBatch) (hview : SameView self.output_format a b) :
    ResultRel self.output_format
      (self._collate a np (some e)) (self._collate b np (some e)) := by
  obtain ⟨hnp, hlb, hneg⟩ := hview
  obtain ⟨np1, np2⟩ := np
  have hg : getPos a (some e) = getPos b (some e) := by
    simp only [getPos, hnp]
  rw [NegativeSampler._collate, NegativeSampler._collate, hg]
  cases hgb : getPos b (some e) with
  | none => exact rfl
  | some pp =>
    obtain ⟨p1, p2⟩ := pp
    dsimp only
    by_cases hf : self.output_format = LinkPredictionEdgeFormat.INDEPENDENT
    · rw [if_pos hf, if_pos hf]
      rw [← hnp]
      cases a.node_pair with
      | none => exact rfl
      | some pf =>
        cases pf with
        | single s d => exact rfl
        | mapping npm =>
          dsimp only
          rw [← hlb hf]
          cases a.label with
          | none => exact rfl
          | some lf =>
            cases lf with
            | single t => exact rfl
            | mapping lm =>
              exact ⟨by simp, fun _ => by simp, fun hne => absurd hf hne⟩
    · rw [if_neg hf, if_neg hf]
      obtain ⟨hhd, htl⟩ := hneg hf
      have hwr : ∀ ns nd : Option Tensor2,
          ResultRel self.output_format (writeNeg a (some e) ns nd) (writeNeg b (some e) ns nd) := by
        intro ns nd
        dsimp only [writeNeg]
        rw [← hhd]
        cases a.negative_head with
        | none => exact rfl
        | some nf =>
          cases nf with
          | single t => exact rfl
          | mapping hm =>
            dsimp only
            rw [← htl]
            cases a.negative_tail with
            | none => exact rfl
            | some nt =>
              cases nt with
              | single t => exact rfl
              | mapping tm =>
                exact ⟨by simp [hnp], fun hi => absurd hi hf, fun _ => by simp⟩
      by_cases hc : self.output_format = LinkPredictionEdgeFormat.CONDITIONED
      · rw [if_pos hc, if_pos hc]
        cases viewRows self.negativesPerPositive np1 with
        | none => exact rfl
        | some ns =>
          dsimp only
          cases viewRows self.negativesPerPositive np2 with
          | none => exact rfl
          | some nd => exact hwr (some ns) (some nd)
      · rw [if_neg hc, if_neg hc]
        by_cases hhc : self.output_format = LinkPredictionEdgeFormat.HEAD_CONDITIONED
        · rw [if_pos hhc, if_pos hhc]
          cases viewRows self.negativesPerPositive np1 with
          | none => exact rfl
          | some ns => exact hwr (some ns) none
        · rw [if_neg hhc, if_neg hhc]
          by_cases htc : self.output_format = LinkPredictionEdgeFormat.TAIL_CONDITIONED
          · rw [if_pos htc, if_pos htc]
            cases viewRows self.negativesPerPositive np2 with
            | none => exact rfl
            | some nd => exact hwr none (some nd)
          · rw [if_neg htc, if_neg htc]
            exact rfl

theorem sampleLoop_congr (self : NegativeSampler) (gen : Gen) :
    ∀ (ps : List (String × Tensor × Tensor)) (a b : MiniBatch),
      SameView self.output_format a b →
      ResultRel self.output_format (sampleLoop self gen a ps) (sampleLoop self gen b ps) := by
  intro ps
  induction ps with
  | nil =>
    intro a b hview
    rw [sampleLoop, sampleLoop]
    exact hview
  | cons hd rest ih =>
    intro a b hview
    obtain ⟨e, pp⟩ := hd
    rw [sampleLoop, sampleLoop]
    have hrel := collate_congr_mapping self (gen (some e) (e, pp).2) e a b hview
    cases hca : self._collate a (gen (some e) (e, pp).2) (some e) with
    | error ea =>
      obtain ⟨m1, s1⟩ := ea
      cases hcb : self._collate b (gen (some e) (e, pp).2) (some e) with
      | error eb =>
        obtain ⟨m2, s2⟩ := eb
        rw [hca, hcb] at hrel
        exact hrel
      | ok mb1 =>
        rw [hca, hcb] at hrel
        exact absurd hrel (by simp [ResultRel])
    | ok mb1a =>
      cases hcb : self._collate b (gen (some e) (e, pp).2) (some e) with
      | error eb =>
        obtain ⟨m2, s2⟩ := eb
        rw [hca, hcb] at hrel
        exact absurd hrel (by simp [ResultRel])
      | ok mb1b =>
        rw [hca, hcb] at hrel
        exact ih mb1a mb1b hrel

/-! ### Claims -/

/-- C8: constructing the sampler with `negative_ratio ≤ 0` fails immediately
at construction time (assert at line 36), before any minibatch is processed;
with a positive ratio construction succeeds and stores `negative_ratio` and
`output_format` unchanged. -/
theorem C8_init_validation (negK : Int) (fmt : LinkPredictionEdgeFormat) :
    (negK ≤ 0 → ∃ msg, NegativeSampler.init negK fmt = Except.error msg) ∧
    (0 < negK → NegativeSampler.init negK fmt = Except.ok
      { negativesPerPositive := negK, output_format := fmt }) := by
  constructor
  · intro h
    exact ⟨_, by rw [NegativeSampler.init, if_neg (by omega)]⟩
  · intro h
    rw [NegativeSampler.init, if_pos h]

theorem C8_witness :
    (∃ msg, NegativeSampler.init 0 LinkPredictionEdgeFormat.INDEPENDENT =
      Except.error msg) ∧
    NegativeSampler.init 2 LinkPredictionEdgeFormat.CONDITIONED = Except.ok
      { negativesPerPositive := 2,
        output_format := LinkPredictionEdgeFormat.CONDITIONED } :=
  ⟨(C8_init_validation 0 LinkPredictionEdgeFormat.INDEPENDENT).1 (by decide),
   (C8_init_validation 2 LinkPredictionEdgeFormat.CONDITIONED).2 (by decide)⟩

/-- C2: under INDEPENDENT, for `n` positives and `n*k` generated negatives the
relation's `node_pair` becomes positives-then-negatives for src and dst alike,
and `label` is `n` ones followed by `n*k` zeros (length `n*(1+k)`, sum `n`),
on the bare single-relation shape and on every entry of a multi-relation
mapping. -/
theorem C2_independent_output (self : NegativeSampler) (gen : Gen) (k : Nat)
    (hfmt : self.output_format = LinkPredictionEdgeFormat.INDEPENDENT) :
    (∀ (src dst : Tensor) (n : Nat) (mb : MiniBatch),
      mb.node_pair = some (PairField.single src dst) →
      src.length = n →
      (gen none (src, dst)).1.length = n * k →
      self._sample gen mb = Except.ok
        { mb with
          node_pair := some (PairField.single
            (src ++ (gen none (src, dst)).1) (dst ++ (gen none (src, dst)).2)),
          label := some (LabelField.single
            (List.replicate n 1 ++ List.replicate (n * k) 0)) } ∧
      (List.replicate n (1 : Int) ++ List.replicate (n * k) (0 : Int)).length = n * (1 + k) ∧
      (List.replicate n (1 : Int) ++ List.replicate (n * k) (0 : Int)).take n =
        List.replicate n 1 ∧
      (List.replicate n (1 : Int) ++ List.replicate (n * k) (0 : Int)).drop n =
        List.replicate (n * k) 0 ∧
      (List.replicate n (1 : Int) ++ List.replicate (n * k) (0 : Int)).sum = n) ∧
    (∀ (ps : List (String × Tensor × Tensor)) (mb : MiniBatch),
      (ps.map Prod.fst).Nodup →
      mb.node_pair = some (PairField.mapping ps) →
      self._sample gen mb = Except.ok
        { mb with
          node_pair := some (PairField.mapping (ps.map (indepPairEntry gen))),
          label := some (LabelField.mapping (ps.map (indepLabelEntry gen))) } ∧
      ∀ p ∈ ps, ∀ n : Nat, p.2.1.length = n → (gen (some p.1) p.2).1.length = n * k →
        (p.1, (p.2.1 ++ (gen (some p.1) p.2).1, p.2.2 ++ (gen (some p.1) p.2).2))
          ∈ ps.map (indepPairEntry gen) ∧
        (p.1, List.replicate n (1 : Int) ++ List.replicate (n * k) (0 : Int))
          ∈ ps.map (indepLabelEntry gen)) := by
  constructor
  · intro src dst n mb hnp hlen hgen
    refine ⟨?_, ?_, ?_, ?_, ?_⟩
    · rw [sample_single self gen mb src dst hnp,
        collate_indep_single self mb hfmt src dst (gen none (src, dst)) hnp]
      rw [show ones_like src = List.replicate n (1 : Int) from by rw [ones_like, hlen],
        show zeros_like (gen none (src, dst)).1 = List.replicate (n * k) (0 : Int) from by
          rw [zeros_like, hgen]]
    · rw [List.length_append, List.length_replicate, List.length_replicate]
      ring
    · simp
    · simp
    · simp [List.sum_replicate]
  · intro ps mb hnd hnp
    refine ⟨sample_indep_mapping self gen hfmt ps mb hnd hnp, ?_⟩
    intro p hp n hlen hgen
    constructor
    · exact List.mem_map_of_mem (indepPairEntry gen) hp
    · have hmem := List.mem_map_of_mem (indepLabelEntry gen) hp
      have heq : indepLabelEntry gen p =
          (p.1, List.replicate n (1 : Int) ++ List.replicate (n * k) (0 : Int)) := by
        rw [indepLabelEntry, ones_like, zeros_like, hlen, hgen]
      rw [← heq]
      exact hmem

def genW2 : Gen := fun _ _ => ([9, 10], [7, 8])

def mbW2 : MiniBatch :=
  { node_pair := some (PairField.single [1, 2] [3, 4]),
    label := none, negative_head := none, negative_tail := none, otherFields := 0 }

theorem C2_witness :
    NegativeSampler._sample ⟨1, LinkPredictionEdgeFormat.INDEPENDENT⟩ genW2 mbW2 =
      Except.ok
        { node_pair := some (PairField.single [1, 2, 9, 10] [3, 4, 7, 8]),
          label := some (LabelField.single [1, 1, 0, 0]),
          negative_head := none, negative_tail := none, otherFields := 0 } := by
  have h := (C2_independent_output ⟨1, LinkPredictionEdgeFormat.INDEPENDENT⟩ genW2 1 rfl).1
    [1, 2] [3, 4] 2 mbW2 rfl rfl rfl
  exact h.1.trans (by decide)

/-- C3: under CONDITIONED, with `n` positives and flat generated negatives of
length `n*k` grouped row-major, the transform reshapes both sides to an
`[n, k]` layout whose element `[i, j]` is the flat element at `i*k + j`, on
the bare shape and on every relation of a mapping. -/
theorem C3_conditioned_reshape (self : NegativeSampler) (gen : Gen) (k : Nat)
    (hfmt : self.output_format = LinkPredictionEdgeFormat.CONDITIONED)
    (hk : self.negativesPerPositive = (k : Int)) (hk0 : 0 < k) :
    (∀ (src dst : Tensor) (n : Nat) (mb : MiniBatch),
      mb.node_pair = some (PairField.single src dst) →
      src.length = n →
      (gen none (src, dst)).1.length = n * k →
      (gen none (src, dst)).2.length = n * k →
      self._sample gen mb = Except.ok
        { mb with
          negative_head := some (NegField.single (chunkRows k (gen none (src, dst)).1)),
          negative_tail := some (NegField.single (chunkRows k (gen none (src, dst)).2)) } ∧
      (chunkRows k (gen none (src, dst)).1).length = n ∧
      (chunkRows k (gen none (src, dst)).2).length = n ∧
      (∀ i, i < n →
        ((chunkRows k (gen none (src, dst)).1).getD i []).length = k ∧
        ((chunkRows k (gen none (src, dst)).2).getD i []).length = k ∧
        ∀ j, j < k →
          ((chunkRows k (gen none (src, dst)).1).getD i []).getD j 0 =
            (gen none (src, dst)).1.getD (i * k + j) 0 ∧
          ((chunkRows k (gen none (src, dst)).2).getD i []).getD j 0 =
            (gen none (src, dst)).2.getD (i * k + j) 0)) ∧
    (∀ (ps : List (String × Tensor × Tensor)) (mb : MiniBatch),
      (ps.map Prod.fst).Nodup →
      mb.node_pair = some (PairField.mapping ps) →
      (∀ p ∈ ps, (gen (some p.1) p.2).1.length = p.2.1.length * k ∧
                 (gen (some p.1) p.2).2.length = p.2.1.length * k) →
      self._sample gen mb = Except.ok
        { mb with
          negative_head := some (NegField.mapping
            (ps.map (condHeadEntry self.negativesPerPositive gen))),
          negative_tail := some (NegField.mapping
            (ps.map (condTailEntry self.negativesPerPositive gen))) } ∧
      ∀ p ∈ ps,
        (p.1, some (chunkRows k (gen (some p.1) p.2).1))
          ∈ ps.map (condHeadEntry self.negativesPerPositive gen) ∧
        (p.1, some (chunkRows k (gen (some p.1) p.2).2))
          ∈ ps.map (condTailEntry self.negativesPerPositive gen) ∧
        (chunkRows k (gen (some p.1) p.2).1).length = p.2.1.length ∧
        (chunkRows k (gen (some p.1) p.2).2).length = p.2.1.length ∧
        (∀ i, i < p.2.1.length → ∀ j, j < k →
          ((chunkRows k (gen (some p.1) p.2).1).getD i []).getD j 0 =
            (gen (some p.1) p.2).1.getD (i * k + j) 0 ∧
          ((chunkRows k (gen (some p.1) p.2).2).getD i []).getD j 0 =
            (gen (some p.1) p.2).2.getD (i * k + j) 0)) := by
  have hkInt : 0 < self.negativesPerPositive := by rw [hk]; exact_mod_cast hk0
  have hkNat : self.negativesPerPositive.toNat = k := by rw [hk]; exact Int.toNat_natCast k
  constructor
  · intro src dst n mb hnp hlen h1 h2
    have hdvd1 : self.negativesPerPositive.toNat ∣ (gen none (src, dst)).1.length := by
      rw [hkNat, h1]; exact dvd_mul_left k n
    have hdvd2 : self.negativesPerPositive.toNat ∣ (gen none (src, dst)).2.length := by
      rw [hkNat, h2]; exact dvd_mul_left k n
    refine ⟨?_, chunkRows_length k n hk0 _ h1, chunkRows_length k n hk0 _ h2, ?_⟩
    · rw [sample_single self gen mb src dst hnp,
        collate_cond_single self mb hfmt src dst (gen none (src, dst)) hnp hkInt hdvd1 hdvd2,
        hkNat]
    · intro i hi
      obtain ⟨hr1, he1⟩ := chunkRows_row k n hk0 _ h1 i hi
      obtain ⟨hr2, he2⟩ := chunkRows_row k n hk0 _ h2 i hi
      exact ⟨hr1, hr2, fun j hj => ⟨he1 j hj, he2 j hj⟩⟩
  · intro ps mb hnd hnp hdiv
    have hdiv' : ∀ p ∈ ps, self.negativesPerPositive.toNat ∣ (gen (some p.1) p.2).1.length ∧
        self.negativesPerPositive.toNat ∣ (gen (some p.1) p.2).2.length := by
      intro p hp
      obtain ⟨d1, d2⟩ := hdiv p hp
      rw [hkNat, d1, d2]
      exact ⟨dvd_mul_left k _, dvd_mul_left k _⟩
    refine ⟨sample_conditioned_mapping self gen hfmt hkInt ps mb hnd hnp hdiv', ?_⟩
    intro p hp
    obtain ⟨d1, d2⟩ := hdiv p hp
    refine ⟨?_, ?_, chunkRows_length k _ hk0 _ d1, chunkRows_length k _ hk0 _ d2, ?_⟩
    · have hmem := List.mem_map_of_mem (condHeadEntry self.negativesPerPositive gen) hp
      have heq : condHeadEntry self.negativesPerPositive gen p =
          (p.1, some (chunkRows k (gen (some p.1) p.2).1)) := by
        rw [condHeadEntry, hkNat]
      rw [← heq]
      exact hmem
    · have hmem := List.mem_map_of_mem (condTailEntry self.negativesPerPositive gen) hp
      have heq : condTailEntry self.negativesPerPositive gen p =
          (p.1, some (chunkRows k (gen (some p.1) p.2).2)) := by
        rw [condTailEntry, hkNat]
      rw [← heq]
      exact hmem
    · intro i hi j hj
      exact ⟨(chunkRows_row k _ hk0 _ d1 i hi).2 j hj,
             (chunkRows_row k _ hk0 _ d2 i hi).2 j hj⟩

def genW3 : Gen := fun _ _ => ([4, 5, 6, 7], [14, 15, 16, 17])

def mbW3 : MiniBatch :=
  { node_pair := some (PairField.single [1, 2] [3, 4]),
    label := none, negative_head := none, negative_tail := none, otherFields := 5 }

theorem C3_witness :
    NegativeSampler._sample ⟨2, LinkPredictionEdgeFormat.CONDITIONED⟩ genW3 mbW3 =
      Except.ok
        { node_pair := some (PairField.single [1, 2] [3, 4]),
          label := none,
          negative_head := some (NegField.single [[4, 5], [6, 7]]),
          negative_tail := some (NegField.single [[14, 15], [16, 17]]),
          otherFields := 5 } := by
  have h := (C3_conditioned_reshape ⟨2, LinkPredictionEdgeFormat.CONDITIONED⟩ genW3 2
    rfl rfl (by decide)).1 [1, 2] [3, 4] 2 mbW3 rfl rfl rfl rfl
  exact h.1.trans (by decide)

/-- C4: under HEAD_CONDITIONED the transform leaves `negative_tail` absent
(`None`, not an empty container) while `negative_head` holds the `[n, k]`
reshape; symmetrically under TAIL_CONDITIONED; both for the bare
single-relation shape and for multi-relation mappings. -/
theorem C4_sided_absence (gen : Gen) (k : Nat) (hk0 : 0 < k) :
    (∀ (self : NegativeSampler),
      self.output_format = LinkPredictionEdgeFormat.HEAD_CONDITIONED →
      self.negativesPerPositive = (k : Int) →
      ∀ (src dst : Tensor) (n : Nat) (mb : MiniBatch),
        mb.node_pair = some (PairField.single src dst) →
        src.length = n →
        (gen none (src, dst)).1.length = n * k →
        self._sample gen mb = Except.ok
          { mb with
            negative_head := some (NegField.single (chunkRows k (gen none (src, dst)).1)),
            negative_tail := none } ∧
        (chunkRows k (gen none (src, dst)).1).length = n ∧
        ∀ i, i < n → ((chunkRows k (gen none (src, dst)).1).getD i []).length = k) ∧
    (∀ (self : NegativeSampler),
      self.output_format = LinkPredictionEdgeFormat.HEAD_CONDITIONED →
      self.negativesPerPositive = (k : Int) →
      ∀ (ps : List (String × Tensor × Tensor)) (mb : MiniBatch),
        (ps.map Prod.fst).Nodup →
        mb.node_pair = some (PairField.mapping ps) →
        (∀ p ∈ ps, (gen (some p.1) p.2).1.length = p.2.1.length * k) →
        self._sample gen mb = Except.ok
          { mb with
            negative_head := some (NegField.mapping
              (ps.map (condHeadEntry self.negativesPerPositive gen))),
            negative_tail := none }) ∧
    (∀ (self : NegativeSampler),
      self.output_format = LinkPredictionEdgeFormat.TAIL_CONDITIONED →
      self.negativesPerPositive = (k : Int) →
      ∀ (src dst : Tensor) (n : Nat) (mb : MiniBatch),
        mb.node_pair = some (PairField.single src dst) →
        src.length = n →
        (gen none (src, dst)).2.length = n * k →
        self._sample gen mb = Except.ok
          { mb with
            negative_head := none,
            negative_tail := some (NegField.single (chunkRows k (gen none (src, dst)).2)) } ∧
        (chunkRows k (gen none (src, dst)).2).length = n ∧
        ∀ i, i < n → ((chunkRows k (gen none (src, dst)).2).getD i []).length = k) ∧
    (∀ (self : NegativeSampler),
      self.output_format = LinkPredictionEdgeFormat.TAIL_CONDITIONED →
      self.negativesPerPositive = (k : Int) →
      ∀ (ps : List (String × Tensor × Tensor)) (mb : MiniBatch),
        (ps.map Prod.fst).Nodup →
        mb.node_pair = some (PairField.mapping ps) →
        (∀ p ∈ ps, (gen (some p.1) p.2).2.length = p.2.1.length * k) →
        self._sample gen mb = Except.ok
          { mb with
            negative_head := none,
            negative_tail := some (NegField.mapping
              (ps.map (condTailEntry self.negativesPerPositive gen))) }) := by
  refine ⟨?_, ?_, ?_, ?_⟩
  · intro self hfmt hk src dst n mb hnp hlen h1
    have hkInt : 0 < self.negativesPerPositive := by rw [hk]; exact_mod_cast hk0
    have hkNat : self.negativesPerPositive.toNat = k := by rw [hk]; exact Int.toNat_natCast k
    have hdvd1 : self.negativesPerPositive.toNat ∣ (gen none (src, dst)).1.length := by
      rw [hkNat, h1]; exact dvd_mul_left k n
    refine ⟨?_, chunkRows_length k n hk0 _ h1,
      fun i hi => (chunkRows_row k n hk0 _ h1 i hi).1⟩
    rw [sample_single self gen mb src dst hnp,
      collate_headcond_single self mb hfmt src dst (gen none (src, dst)) hnp hkInt hdvd1,
      hkNat]
  · intro self hfmt hk ps mb hnd hnp hdiv
    have hkInt : 0 < self.negativesPerPositive := by rw [hk]; exact_mod_cast hk0
    have hkNat : self.negativesPerPositive.toNat = k := by rw [hk]; exact Int.toNat_natCast k
    refine sample_headcond_mapping self gen hfmt hkInt ps mb hnd hnp ?_
    intro p hp
    rw [hkNat, hdiv p hp]
    exact dvd_mul_left k _
  · intro self hfmt hk src dst n mb hnp hlen h2
    have hkInt : 0 < self.negativesPerPositive := by rw [hk]; exact_mod_cast hk0
    have hkNat : self.negativesPerPositive.toNat = k := by rw [hk]; exact Int.toNat_natCast k
    have hdvd2 : self.negativesPerPositive.toNat ∣ (gen none (src, dst)).2.length := by
      rw [hkNat, h2]; exact dvd_mul_left k n
    refine ⟨?_, chunkRows_length k n hk0 _ h2,
      fun i hi => (chunkRows_row k n hk0 _ h2 i hi).1⟩
    rw [sample_single self gen mb src dst hnp,
      collate_tailcond_single self mb hfmt src dst (gen none (src, dst)) hnp hkInt hdvd2,
      hkNat]
  · intro self hfmt hk ps mb hnd hnp hdiv
    have hkInt : 0 < self.negativesPerPositive := by rw [hk]; exact_mod_cast hk0
    have hkNat : self.negativesPerPositive.toNat = k := by rw [hk]; exact Int.toNat_natCast k
    refine sample_tailcond_mapping self gen hfmt hkInt ps mb hnd hnp ?_
    intro p hp
    rw [hkNat, hdiv p hp]
    exact dvd_mul_left k _

def genW4 : Gen := fun p _ => if p = some ("A") then ([11], [12]) else ([13], [14])

def mbW4 : MiniBatch :=
  { node_pair := some (PairField.mapping [("A", [1], [2]), ("B", [3], [4])]),
    label := none,
    negative_head := some (NegField.single [[99]]),
    negative_tail := some (NegField.single [[98]]),
    otherFields := 0 }

theorem C4_witness :
    NegativeSampler._sample ⟨1, LinkPredictionEdgeFormat.HEAD_CONDITIONED⟩ genW4 mbW4 =
      Except.ok
        { node_pair := some (PairField.mapping [("A", [1], [2]), ("B", [3], [4])]),
          label := none,
          negative_head := some (NegField.mapping [("A", some [[11]]), ("B", some [[13]])]),
          negative_tail := none,
          otherFields := 0 } := by
  have h := (C4_sided_absence genW4 1 (by decide)).2.1
    ⟨1, LinkPredictionEdgeFormat.HEAD_CONDITIONED⟩ rfl rfl
    [("A", [1], [2]), ("B", [3], [4])] mbW4 (by decide) rfl (by decide)
  exact h.trans (by decide)

/-- C6: on a multi-relation minibatch the output mappings (label under
INDEPENDENT; negative head/tail under the conditioned formats) carry exactly
the input `node_pair` mapping's key list — no extra, no missing — and a
relation with zero positives (generator returning empty) yields a present,
empty entry rather than an error. -/
theorem C6_keyset (gen : Gen) :
    (∀ (self : NegativeSampler),
      self.output_format = LinkPredictionEdgeFormat.INDEPENDENT →
      ∀ (ps : List (String × Tensor × Tensor)) (mb : MiniBatch),
        (ps.map Prod.fst).Nodup →
        mb.node_pair = some (PairField.mapping ps) →
        ∃ lm, self._sample gen mb = Except.ok
          { mb with
            node_pair := some (PairField.mapping (ps.map (indepPairEntry gen))),
            label := some (LabelField.mapping lm) } ∧
          lm.map Prod.fst = ps.map Prod.fst ∧
          (ps.map (indepPairEntry gen)).map Prod.fst = ps.map Prod.fst ∧
          ∀ p ∈ ps, p.2.1 = [] → gen (some p.1) p.2 = ([], []) →
            (p.1, ([] : Tensor)) ∈ lm) ∧
    (∀ (self : NegativeSampler),
      self.output_format = LinkPredictionEdgeFormat.CONDITIONED →
      0 < self.negativesPerPositive →
      ∀ (ps : List (String × Tensor × Tensor)) (mb : MiniBatch),
        (ps.map Prod.fst).Nodup →
        mb.node_pair = some (PairField.mapping ps) →
        (∀ p ∈ ps, self.negativesPerPositive.toNat ∣ (gen (some p.1) p.2).1.length ∧
                   self.negativesPerPositive.toNat ∣ (gen (some p.1) p.2).2.length) →
        ∃ hm tm, self._sample gen mb = Except.ok
          { mb with
            negative_head := some (NegField.mapping hm),
            negative_tail := some (NegField.mapping tm) } ∧
          hm.map Prod.fst = ps.map Prod.fst ∧
          tm.map Prod.fst = ps.map Prod.fst ∧
          ∀ p ∈ ps, p.2.1 = [] → gen (some p.1) p.2 = ([], []) →
            (p.1, some ([] : Tensor2)) ∈ hm ∧ (p.1, some ([] : Tensor2)) ∈ tm) ∧
    (∀ (self : NegativeSampler),
      self.output_format = LinkPredictionEdgeFormat.HEAD_CONDITIONED →
      0 < self.negativesPerPositive →
      ∀ (ps : List (String × Tensor × Tensor)) (mb : MiniBatch),
        (ps.map Prod.fst).Nodup →
        mb.node_pair = some (PairField.mapping ps) →
        (∀ p ∈ ps, self.negativesPerPositive.toNat ∣ (gen (some p.1) p.2).1.length) →
        ∃ hm, self._sample gen mb = Except.ok
          { mb with
            negative_head := some (NegField.mapping hm),
            negative_tail := none } ∧
          hm.map Prod.fst = ps.map Prod.fst ∧
          ∀ p ∈ ps, p.2.1 = [] → gen (some p.1) p.2 = ([], []) →
            (p.1, some ([] : Tensor2)) ∈ hm) ∧
    (∀ (self : NegativeSampler),
      self.output_format = LinkPredictionEdgeFormat.TAIL_CONDITIONED →
      0 < self.negativesPerPositive →
      ∀ (ps : List (String × Tensor × Tensor)) (mb : MiniBatch),
        (ps.map Prod.fst).Nodup →
        mb.node_pair = some (PairField.mapping ps) →
        (∀ p ∈ ps, self.negativesPerPositive.toNat ∣ (gen (some p.1) p.2).2.length) →
        ∃ tm, self._sample gen mb = Except.ok
          { mb with
            negative_head := none,
            negative_tail := some (NegField.mapping tm) } ∧
          tm.map Prod.fst = ps.map Prod.fst ∧
          ∀ p ∈ ps, p.2.1 = [] → gen (some p.1) p.2 = ([], []) →
            (p.1, some ([] : Tensor2)) ∈ tm) := by
  refine ⟨?_, ?_, ?_, ?_⟩
  · intro self hfmt ps mb hnd hnp
    refine ⟨ps.map (indepLabelEntry gen),
      sample_indep_mapping self gen hfmt ps mb hnd hnp,
      map_fst_map (indepLabelEntry gen) (fun p => rfl) ps,
      map_fst_map (indepPairEntry gen) (fun p => rfl) ps, ?_⟩
    intro p hp hzero hgen
    have hmem := List.mem_map_of_mem (indepLabelEntry gen) hp
    have heq : indepLabelEntry gen p = (p.1, ([] : Tensor)) := by
      rw [indepLabelEntry, hzero, hgen]
      rfl
    rw [← heq]
    exact hmem
  · intro self hfmt hk ps mb hnd hnp hdiv
    refine ⟨ps.map (condHeadEntry self.negativesPerPositive gen),
      ps.map (condTailEntry self.negativesPerPositive gen),
      sample_conditioned_mapping self gen hfmt hk ps mb hnd hnp hdiv,
      map_fst_map (condHeadEntry self.negativesPerPositive gen) (fun p => rfl) ps,
      map_fst_map (condTailEntry self.negativesPerPositive gen) (fun p => rfl) ps, ?_⟩
    intro p hp hzero hgen
    constructor
    · have hmem := List.mem_map_of_mem (condHeadEntry self.negativesPerPositive gen) hp
      have heq : condHeadEntry self.negativesPerPositive gen p = (p.1, some ([] : Tensor2)) := by
        rw [condHeadEntry, hgen]
        rfl
      rw [← heq]
      exact hmem
    · have hmem := List.mem_map_of_mem (condTailEntry self.negativesPerPositive gen) hp
      have heq : condTailEntry self.negativesPerPositive gen p = (p.1, some ([] : Tensor2)) := by
        rw [condTailEntry, hgen]
        rfl
      rw [← heq]
      exact hmem
  · intro self hfmt hk ps mb hnd hnp hdiv
    refine ⟨ps.map (condHeadEntry self.negativesPerPositive gen),
      sample_headcond_mapping self gen hfmt hk ps mb hnd hnp hdiv,
      map_fst_map (condHeadEntry self.negativesPerPositive gen) (fun p => rfl) ps, ?_⟩
    intro p hp hzero hgen
    have hmem := List.mem_map_of_mem (condHeadEntry self.negativesPerPositive gen) hp
    have heq : condHeadEntry self.negativesPerPositive gen p = (p.1, some ([] : Tensor2)) := by
      rw [condHeadEntry, hgen]
      rfl
    rw [← heq]
    exact hmem
  · intro self hfmt hk ps mb hnd hnp hdiv
    refine ⟨ps.map (condTailEntry self.negativesPerPositive gen),
      sample_tailcond_mapping self gen hfmt hk ps mb hnd hnp hdiv,
      map_fst_map (condTailEntry self.negativesPerPositive gen) (fun p => rfl) ps, ?_⟩
    intro p hp hzero hgen
    have hmem := List.mem_map_of_mem (condTailEntry self.negativesPerPositive gen) hp
    have heq : condTailEntry self.negativesPerPositive gen p = (p.1, some ([] : Tensor2)) := by
      rw [condTailEntry, hgen]
      rfl
    rw [← heq]
    exact hmem

def psW6 : List (String × Tensor × Tensor) := [("A", [], []), ("B", [1], [2])]

def genW6 : Gen := fun p _ => if p = some ("B") then ([7], [8]) else ([], [])

def mbW6 : MiniBatch :=
  { node_pair := some (PairField.mapping psW6),
    label := none, negative_head := none, negative_tail := none, otherFields := 0 }

theorem C6_witness :
    ∃ lm, NegativeSampler._sample ⟨1, LinkPredictionEdgeFormat.INDEPENDENT⟩ genW6 mbW6 =
        Except.ok
          { mbW6 with
            node_pair := some (PairField.mapping (psW6.map (indepPairEntry genW6))),
            label := some (LabelField.mapping lm) } ∧
      lm.map Prod.fst = psW6.map Prod.fst ∧
      (psW6.map (indepPairEntry genW6)).map Prod.fst = psW6.map Prod.fst ∧
      ∀ p ∈ psW6, p.2.1 = [] → genW6 (some p.1) p.2 = ([], []) →
        (p.1, ([] : Tensor)) ∈ lm :=
  (C6_keyset genW6).1 ⟨1, LinkPredictionEdgeFormat.INDEPENDENT⟩ rfl psW6 mbW6
    (by decide) rfl

def genC1 : Gen := fun _ _ => ([9, 10], [8])

def mbC1 : MiniBatch :=
  { node_pair := some (PairField.single [1] [3]),
    label := none, negative_head := none, negative_tail := none, otherFields := 0 }

/-- C1 counterexample: with `negative_ratio = 1`, one positive pair and a
generator returning two negative sources but only one negative destination
(count `2 ≠ 1*1`, and `neg_src`/`neg_dst` lengths differ), the INDEPENDENT
transform raises no error: it silently emits a malformed result whose
concatenated src has length 3 while dst has length 2. -/
theorem C1_counterexample :
    NegativeSampler._sample ⟨1, LinkPredictionEdgeFormat.INDEPENDENT⟩ genC1 mbC1 =
      Except.ok
        { node_pair := some (PairField.single [1, 9, 10] [3, 8]),
          label := some (LabelField.single [1, 0, 0]),
          negative_head := none, negative_tail := none, otherFields := 0 } := by
  decide

theorem collate_headcond_fail_single (self : NegativeSampler) (mb : MiniBatch)
    (hfmt : self.output_format = LinkPredictionEdgeFormat.HEAD_CONDITIONED)
    (src dst : Tensor) (np : Tensor × Tensor)
    (hnp : mb.node_pair = some (PairField.single src dst))
    (hfail : ¬ (0 < self.negativesPerPositive ∧
                self.negativesPerPositive.toNat ∣ np.1.length)) :
    self._collate mb np none = Except.error ("RuntimeError", mb) := by
  obtain ⟨np1, np2⟩ := np
  have hget : getPos mb none = some (src, dst) := by
    simp only [getPos, hnp]
  rw [NegativeSampler._collate, hget]
  dsimp only
  rw [hfmt]
  rw [if_neg (by decide), if_neg (by decide), if_pos rfl]
  rw [viewRows_fail _ _ hfail]

theorem collate_tailcond_fail_single (self : NegativeSampler) (mb : MiniBatch)
    (hfmt : self.output_format = LinkPredictionEdgeFormat.TAIL_CONDITIONED)
    (src dst : Tensor) (np : Tensor × Tensor)
    (hnp : mb.node_pair = some (PairField.single src dst))
    (hfail : ¬ (0 < self.negativesPerPositive ∧
                self.negativesPerPositive.toNat ∣ np.2.length)) :
    self._collate mb np none = Except.error ("RuntimeError", mb) := by
  obtain ⟨np1, np2⟩ := np
  have hget : getPos mb none = some (src, dst) := by
    simp only [getPos, hnp]
  rw [NegativeSampler._collate, hget]
  dsimp only
  rw [hfmt]
  rw [if_neg (by decide), if_neg (by decide), if_neg (by decide), if_pos rfl]
  rw [viewRows_fail _ _ hfail]

theorem collate_cond_fail_at (self : NegativeSampler) (mb : MiniBatch)
    (hfmt : self.output_format = LinkPredictionEdgeFormat.CONDITIONED)
    (e : String) (pp np : Tensor × Tensor)
    (M : List (String × Tensor × Tensor))
    (hnp : mb.node_pair = some (PairField.mapping M))
    (hfound : lookupKey M e = some pp)
    (hfail : ¬ (0 < self.negativesPerPositive ∧
                self.negativesPerPositive.toNat ∣ np.1.length) ∨
             ((0 < self.negativesPerPositive ∧
               self.negativesPerPositive.toNat ∣ np.1.length) ∧
              ¬ (0 < self.negativesPerPositive ∧
                 self.negativesPerPositive.toNat ∣ np.2.length))) :
    self._collate mb np (some e) = Except.error ("RuntimeError", mb) := by
  obtain ⟨pp1, pp2⟩ := pp
  obtain ⟨np1, np2⟩ := np
  have hget : getPos mb (some e) = some (pp1, pp2) := by
    simp only [getPos, hnp]; exact hfound
  rw [NegativeSampler._collate, hget]
  dsimp only
  rw [hfmt]
  rw [if_neg (by decide), if_pos rfl]
  rcases hfail with h | ⟨h1, h2⟩
  · rw [viewRows_fail _ _ h]
  · obtain ⟨hk, hd⟩ := h1
    rw [viewRows_pos _ _ hk hd, viewRows_fail _ _ h2]

theorem collate_headcond_fail_at (self : NegativeSampler) (mb : MiniBatch)
    (hfmt : self.output_format = LinkPredictionEdgeFormat.HEAD_CONDITIONED)
    (e : String) (pp np : Tensor × Tensor)
    (M : List (String × Tensor × Tensor))
    (hnp : mb.node_pair = some (PairField.mapping M))
    (hfound : lookupKey M e = some pp)
    (hfail : ¬ (0 < self.negativesPerPositive ∧
                self.negativesPerPositive.toNat ∣ np.1.length)) :
    self._collate mb np (some e) = Except.error ("RuntimeError", mb) := by
  obtain ⟨pp1, pp2⟩ := pp
  obtain ⟨np1, np2⟩ := np
  have hget : getPos mb (some e) = some (pp1, pp2) := by
    simp only [getPos, hnp]; exact hfound
  rw [NegativeSampler._collate, hget]
  dsimp only
  rw [hfmt]
  rw [if_neg (by decide), if_neg (by decide), if_pos rfl]
  rw [viewRows_fail _ _ hfail]

theorem collate_tailcond_fail_at (self : NegativeSampler) (mb : MiniBatch)
    (hfmt : self.output_format = LinkPredictionEdgeFormat.TAIL_CONDITIONED)
    (e : String) (pp np : Tensor × Tensor)
    (M : List (String × Tensor × Tensor))
    (hnp : mb.node_pair = some (PairField.mapping M))
    (hfound : lookupKey M e = some pp)
    (hfail : ¬ (0 < self.negativesPerPositive ∧
                self.negativesPerPositive.toNat ∣ np.2.length)) :
    self._collate mb np (some e) = Except.error ("RuntimeError", mb) := by
  obtain ⟨pp1, pp2⟩ := pp
  obtain ⟨np1, np2⟩ := np
  have hget : getPos mb (some e) = some (pp1, pp2) := by
    simp only [getPos, hnp]; exact hfound
  rw [NegativeSampler._collate, hget]
  dsimp only
  rw [hfmt]
  rw [if_neg (by decide), if_neg (by decide), if_neg (by decide), if_pos rfl]
  rw [viewRows_fail _ _ hfail]

theorem sample_cond_fail_mapping (self : NegativeSampler) (gen : Gen)
    (hfmt : self.output_format = LinkPredictionEdgeFormat.CONDITIONED)
    (e : String) (pp : Tensor × Tensor)
    (rest : List (String × Tensor × Tensor)) (mb : MiniBatch)
    (hnp : mb.node_pair = some (PairField.mapping ((e, pp) :: rest)))
    (hfail : ¬ (0 < self.negativesPerPositive ∧
                self.negativesPerPositive.toNat ∣ (gen (some e) pp).1.length) ∨
             ((0 < self.negativesPerPositive ∧
               self.negativesPerPositive.toNat ∣ (gen (some e) pp).1.length) ∧
              ¬ (0 < self.negativesPerPositive ∧
                 self.negativesPerPositive.toNat ∣ (gen (some e) pp).2.length))) :
    self._sample gen mb = Except.error ("RuntimeError",
      { mb with negative_head := some (NegField.mapping []),
                negative_tail := some (NegField.mapping []) }) := by
  obtain ⟨np0, lb0, nh0, nt0, of0⟩ := mb
  replace hnp : np0 = some (PairField.mapping ((e, pp) :: rest)) := hnp
  subst hnp
  rw [NegativeSampler._sample]
  dsimp only
  rw [hfmt]
  rw [if_neg (by decide)]
  rw [sampleLoop]
  rw [collate_cond_fail_at self
    ⟨some (PairField.mapping ((e, pp) :: rest)), lb0, some (NegField.mapping []),
      some (NegField.mapping []), of0⟩
    hfmt e pp (gen (some e) (e, pp).2) ((e, pp) :: rest) rfl
    (lookupKey_cons_self e pp rest) hfail]

theorem sample_headcond_fail_mapping (self : NegativeSampler) (gen : Gen)
    (hfmt : self.output_format = LinkPredictionEdgeFormat.HEAD_CONDITIONED)
    (e : String) (pp : Tensor × Tensor)
    (rest : List (String × Tensor × Tensor)) (mb : MiniBatch)
    (hnp : mb.node_pair = some (PairField.mapping ((e, pp) :: rest)))
    (hfail : ¬ (0 < self.negativesPerPositive ∧
                self.negativesPerPositive.toNat ∣ (gen (some e) pp).1.length)) :
    self._sample gen mb = Except.error ("RuntimeError",
      { mb with negative_head := some (NegField.mapping []),
                negative_tail := some (NegField.mapping []) }) := by
  obtain ⟨np0, lb0, nh0, nt0, of0⟩ := mb
  replace hnp : np0 = some (PairField.mapping ((e, pp) :: rest)) := hnp
  subst hnp
  rw [NegativeSampler._sample]
  dsimp only
  rw [hfmt]
  rw [if_neg (by decide)]
  rw [sampleLoop]
  rw [collate_headcond_fail_at self
    ⟨some (PairField.mapping ((e, pp) :: rest)), lb0, some (NegField.mapping []),
      some (NegField.mapping []), of0⟩
    hfmt e pp (gen (some e) (e, pp).2) ((e, pp) :: rest) rfl
    (lookupKey_cons_self e pp rest) hfail]

theorem sample_tailcond_fail_mapping (self : NegativeSampler) (gen : Gen)
    (hfmt : self.output_format = LinkPredictionEdgeFormat.TAIL_CONDITIONED)
    (e : String) (pp : Tensor × Tensor)
    (rest : List (String × Tensor × Tensor)) (mb : MiniBatch)
    (hnp : mb.node_pair = some (PairField.mapping ((e, pp) :: rest)))
    (hfail : ¬ (0 < self.negativesPerPositive ∧
                self.negativesPerPositive.toNat ∣ (gen (some e) pp).2.length)) :
    self._sample gen mb = Except.error ("RuntimeError",
      { mb with negative_head := some (NegField.mapping []),
                negative_tail := some (NegField.mapping []) }) := by
  obtain ⟨np0, lb0, nh0, nt0, of0⟩ := mb
  replace hnp : np0 = some (PairField.mapping ((e, pp) :: rest)) := hnp
  subst hnp
  rw [NegativeSampler._sample]
  dsimp only
  rw [hfmt]
  rw [if_neg (by decide)]
  rw [sampleLoop]
  rw [collate_tailcond_fail_at self
    ⟨some (PairField.mapping ((e, pp) :: rest)), lb0, some (NegField.mapping []),
      some (NegField.mapping []), of0⟩
    hfmt e pp (gen (some e) (e, pp).2) ((e, pp) :: rest) rfl
    (lookupKey_cons_self e pp rest) hfail]

/-- C1 amended: mismatch detection exists only in the conditioned reshape and
only for negative lengths that are not a multiple of `negative_ratio`.  Under
CONDITIONED (either side, src checked first), HEAD_CONDITIONED (src side) and
TAIL_CONDITIONED (dst side) such a length raises a RuntimeError with no
reshaped output written: on the bare single-relation shape the minibatch is
returned exactly as it was, while on the mapping shape (mismatch at the first
relation) the error escapes only after `negative_head` and `negative_tail`
have been reset to fresh empty mappings, so there the minibatch is not left
untouched.  Under INDEPENDENT no detection exists on either shape: every
generator result, wrong counts and differing src/dst lengths included, is
silently concatenated.  A wrong count that is a multiple of `negative_ratio`
is accepted by all three conditioned reshapes. -/
theorem C1_amended_mismatch (self : NegativeSampler) (gen : Gen) :
    (self.output_format = LinkPredictionEdgeFormat.CONDITIONED →
      0 < self.negativesPerPositive →
      ∀ (src dst : Tensor) (mb : MiniBatch),
        mb.node_pair = some (PairField.single src dst) →
        (¬ self.negativesPerPositive.toNat ∣ (gen none (src, dst)).1.length ∨
          (self.negativesPerPositive.toNat ∣ (gen none (src, dst)).1.length ∧
           ¬ self.negativesPerPositive.toNat ∣ (gen none (src, dst)).2.length)) →
        self._sample gen mb = Except.error ("RuntimeError", mb)) ∧
    (self.output_format = LinkPredictionEdgeFormat.HEAD_CONDITIONED →
      0 < self.negativesPerPositive →
      ∀ (src dst : Tensor) (mb : MiniBatch),
        mb.node_pair = some (PairField.single src dst) →
        ¬ self.negativesPerPositive.toNat ∣ (gen none (src, dst)).1.length →
        self._sample gen mb = Except.error ("RuntimeError", mb)) ∧
    (self.output_format = LinkPredictionEdgeFormat.TAIL_CONDITIONED →
      0 < self.negativesPerPositive →
      ∀ (src dst : Tensor) (mb : MiniBatch),
        mb.node_pair = some (PairField.single src dst) →
        ¬ self.negativesPerPositive.toNat ∣ (gen none (src, dst)).2.length →
        self._sample gen mb = Except.error ("RuntimeError", mb)) ∧
    (self.output_format = LinkPredictionEdgeFormat.CONDITIONED →
      0 < self.negativesPerPositive →
      ∀ (e : String) (pp : Tensor × Tensor)
        (rest : List (String × Tensor × Tensor)) (mb : MiniBatch),
        mb.node_pair = some (PairField.mapping ((e, pp) :: rest)) →
        (¬ self.negativesPerPositive.toNat ∣ (gen (some e) pp).1.length ∨
          (self.negativesPerPositive.toNat ∣ (gen (some e) pp).1.length ∧
           ¬ self.negativesPerPositive.toNat ∣ (gen (some e) pp).2.length)) →
        self._sample gen mb = Except.error ("RuntimeError",
          { mb with negative_head := some (NegField.mapping []),
                    negative_tail := some (NegField.mapping []) })) ∧
    (self.output_format = LinkPredictionEdgeFormat.HEAD_CONDITIONED →
      0 < self.negativesPerPositive →
      ∀ (e : String) (pp : Tensor × Tensor)
        (rest : List (String × Tensor × Tensor)) (mb : MiniBatch),
        mb.node_pair = some (PairField.mapping ((e, pp) :: rest)) →
        ¬ self.negativesPerPositive.toNat ∣ (gen (some e) pp).1.length →
        self._sample gen mb = Except.error ("RuntimeError",
          { mb with negative_head := some (NegField.mapping []),
                    negative_tail := some (NegField.mapping []) })) ∧
    (self.output_format = LinkPredictionEdgeFormat.TAIL_CONDITIONED →
      0 < self.negativesPerPositive →
      ∀ (e : String) (pp : Tensor × Tensor)
        (rest : List (String × Tensor × Tensor)) (mb : MiniBatch),
        mb.node_pair = some (PairField.mapping ((e, pp) :: rest)) →
        ¬ self.negativesPerPositive.toNat ∣ (gen (some e) pp).2.length →
        self._sample gen mb = Except.error ("RuntimeError",
          { mb with negative_head := some (NegField.mapping []),
                    negative_tail := some (NegField.mapping []) })) ∧
    (self.output_format = LinkPredictionEdgeFormat.INDEPENDENT →
      ∀ (src dst : Tensor) (mb : MiniBatch),
        mb.node_pair = some (PairField.single src dst) →
        self._sample gen mb = Except.ok
          { mb with
            node_pair := some (PairField.single
              (src ++ (gen none (src, dst)).1) (dst ++ (gen none (src, dst)).2)),
            label := some (LabelField.single
              (ones_like src ++ zeros_like (gen none (src, dst)).1)) }) ∧
    (self.output_format = LinkPredictionEdgeFormat.INDEPENDENT →
      ∀ (ps : List (String × Tensor × Tensor)) (mb : MiniBatch),
        (ps.map Prod.fst).Nodup →
        mb.node_pair = some (PairField.mapping ps) →
        self._sample gen mb = Except.ok
          { mb with
            node_pair := some (PairField.mapping (ps.map (indepPairEntry gen))),
            label := some (LabelField.mapping (ps.map (indepLabelEntry gen))) }) ∧
    (self.output_format = LinkPredictionEdgeFormat.CONDITIONED →
      0 < self.negativesPerPositive →
      ∀ (src dst : Tensor) (mb : MiniBatch),
        mb.node_pair = some (PairField.single src dst) →
        self.negativesPerPositive.toNat ∣ (gen none (src, dst)).1.length →
        self.negativesPerPositive.toNat ∣ (gen none (src, dst)).2.length →
        ∃ mbOut, self._sample gen mb = Except.ok mbOut) ∧
    (self.output_format = LinkPredictionEdgeFormat.HEAD_CONDITIONED →
      0 < self.negativesPerPositive →
      ∀ (src dst : Tensor) (mb : MiniBatch),
        mb.node_pair = some (PairField.single src dst) →
        self.negativesPerPositive.toNat ∣ (gen none (src, dst)).1.length →
        ∃ mbOut, self._sample gen mb = Except.ok mbOut) ∧
    (self.output_format = LinkPredictionEdgeFormat.TAIL_CONDITIONED →
      0 < self.negativesPerPositive →
      ∀ (src dst : Tensor) (mb : MiniBatch),
        mb.node_pair = some (PairField.single src dst) →
        self.negativesPerPositive.toNat ∣ (gen none (src, dst)).2.length →
        ∃ mbOut, self._sample gen mb = Except.ok mbOut) := by
  refine ⟨?_, ?_, ?_, ?_, ?_, ?_, ?_, ?_, ?_, ?_, ?_⟩
  · intro hfmt hk src dst mb hnp hbad
    rw [sample_single self gen mb src dst hnp]
    rcases hbad with hb | ⟨hd1, hb2⟩
    · exact collate_cond_fail_single self mb hfmt src dst (gen none (src, dst)) hnp
        (Or.inl (fun hc => hb hc.2))
    · exact collate_cond_fail_single self mb hfmt src dst (gen none (src, dst)) hnp
        (Or.inr ⟨⟨hk, hd1⟩, fun hc => hb2 hc.2⟩)
  · intro hfmt hk src dst mb hnp hnd
    rw [sample_single self gen mb src dst hnp]
    exact collate_headcond_fail_single self mb hfmt src dst (gen none (src, dst)) hnp
      (fun hc => hnd hc.2)
  · intro hfmt hk src dst mb hnp hnd
    rw [sample_single self gen mb src dst hnp]
    exact collate_tailcond_fail_single self mb hfmt src dst (gen none (src, dst)) hnp
      (fun hc => hnd hc.2)
  · intro hfmt hk e pp rest mb hnp hbad
    refine sample_cond_fail_mapping self gen hfmt e pp rest mb hnp ?_
    rcases hbad with hb | ⟨hd1, hb2⟩
    · exact Or.inl (fun hc => hb hc.2)
    · exact Or.inr ⟨⟨hk, hd1⟩, fun hc => hb2 hc.2⟩
  · intro hfmt hk e pp rest mb hnp hnd
    exact sample_headcond_fail_mapping self gen hfmt e pp rest mb hnp
      (fun hc => hnd hc.2)
  · intro hfmt hk e pp rest mb hnp hnd
    exact sample_tailcond_fail_mapping self gen hfmt e pp rest mb hnp
      (fun hc => hnd hc.2)
  · intro hfmt src dst mb hnp
    rw [sample_single self gen mb src dst hnp]
    exact collate_indep_single self mb hfmt src dst (gen none (src, dst)) hnp
  · intro hfmt ps mb hnd hnp
    exact sample_indep_mapping self gen hfmt ps mb hnd hnp
  · intro hfmt hk src dst mb hnp hd1 hd2
    rw [sample_single self gen mb src dst hnp]
    exact ⟨_, collate_cond_single self mb hfmt src dst (gen none (src, dst)) hnp hk hd1 hd2⟩
  · intro hfmt hk src dst mb hnp hd1
    rw [sample_single self gen mb src dst hnp]
    exact ⟨_, collate_headcond_single self mb hfmt src dst (gen none (src, dst)) hnp hk hd1⟩
  · intro hfmt hk src dst mb hnp hd2
    rw [sample_single self gen mb src dst hnp]
    exact ⟨_, collate_tailcond_single self mb hfmt src dst (gen none (src, dst)) hnp hk hd2⟩

def genW1 : Gen := fun _ _ => ([1, 2, 3], [4, 5, 6])

def mbW1 : MiniBatch :=
  { node_pair := some (PairField.single [7] [8]),
    label := none, negative_head := none, negative_tail := none, otherFields := 0 }

def mbW1m : MiniBatch :=
  { node_pair := some (PairField.mapping [("A", [7], [8])]),
    label := none, negative_head := none, negative_tail := none, otherFields := 9 }

theorem C1_witness :
    (NegativeSampler._sample ⟨2, LinkPredictionEdgeFormat.CONDITIONED⟩ genW1 mbW1 =
      Except.error ("RuntimeError", mbW1)) ∧
    (NegativeSampler._sample ⟨2, LinkPredictionEdgeFormat.HEAD_CONDITIONED⟩ genW1 mbW1m =
      Except.error ("RuntimeError",
        { mbW1m with negative_head := some (NegField.mapping []),
                     negative_tail := some (NegField.mapping []) })) :=
  ⟨(C1_amended_mismatch ⟨2, LinkPredictionEdgeFormat.CONDITIONED⟩ genW1).1 rfl (by decide)
      [7] [8] mbW1 rfl (Or.inl (by decide)),
   (C1_amended_mismatch ⟨2, LinkPredictionEdgeFormat.HEAD_CONDITIONED⟩ genW1).2.2.2.2.1
      rfl (by decide) "A" ([7], [8]) [] mbW1m rfl (by decide)⟩

def genC7 : Gen := fun _ _ => ([], [])

def mbC7 : MiniBatch :=
  { node_pair := some (PairField.mapping []),
    label := none, negative_head := none, negative_tail := none, otherFields := 0 }

/-- C7 counterexample: with an unrecognized format tag and a minibatch whose
`node_pair` is an empty mapping, the per-relation loop never runs, so no
unsupported-configuration error is raised: `_sample` succeeds, leaving behind
freshly assigned empty negative mappings. -/
theorem C7_counterexample :
    NegativeSampler._sample ⟨1, LinkPredictionEdgeFormat.other ("bogus")⟩ genC7 mbC7 =
      Except.ok
        { node_pair := some (PairField.mapping []),
          label := none,
          negative_head := some (NegField.mapping []),
          negative_tail := some (NegField.mapping []),
          otherFields := 0 } := by
  decide

/-- C7 amended: an unrecognized output-format tag makes `_sample` fail with
the unsupported-format TypeError on every bare-pair minibatch and on every
mapping minibatch with at least one relation; the one exception is a mapping
with zero relations, which is transformed without error (the collation step,
where the check lives, is never reached). -/
theorem C7_amended_unknown_format (self : NegativeSampler) (gen : Gen) (tag : String)
    (hfmt : self.output_format = LinkPredictionEdgeFormat.other tag) :
    (∀ (src dst : Tensor) (mb : MiniBatch),
      mb.node_pair = some (PairField.single src dst) →
      self._sample gen mb =
        Except.error ("TypeError: Unsupported output format.", mb)) ∧
    (∀ (e : String) (pp : Tensor × Tensor)
      (rest : List (String × Tensor × Tensor)) (mb : MiniBatch),
      mb.node_pair = some (PairField.mapping ((e, pp) :: rest)) →
      ∃ mbErr, self._sample gen mb =
        Except.error ("TypeError: Unsupported output format.", mbErr)) ∧
    (∀ mb : MiniBatch, mb.node_pair = some (PairField.mapping []) →
      self._sample gen mb = Except.ok
        { mb with negative_head := some (NegField.mapping []),
                  negative_tail := some (NegField.mapping []) }) := by
  refine ⟨?_, ?_, ?_⟩
  · intro src dst mb hnp
    rw [sample_single self gen mb src dst hnp]
    exact collate_unknown_single self mb tag hfmt src dst (gen none (src, dst)) hnp
  · intro e pp rest mb hnp
    exact ⟨_, sample_unknown_mapping_error self gen tag hfmt e pp rest mb hnp⟩
  · intro mb hnp
    exact sample_unknown_mapping_empty self gen tag hfmt mb hnp

def genW7 : Gen := fun _ _ => ([5], [6])

def mbW7 : MiniBatch :=
  { node_pair := some (PairField.single [1] [2]),
    label := none, negative_head := none, negative_tail := none, otherFields := 0 }

theorem C7_witness :
    NegativeSampler._sample ⟨1, LinkPredictionEdgeFormat.other ("X")⟩ genW7 mbW7 =
      Except.error ("TypeError: Unsupported output format.", mbW7) :=
  (C7_amended_unknown_format ⟨1, LinkPredictionEdgeFormat.other ("X")⟩ genW7 ("X") rfl).1
    [1] [2] mbW7 rfl

/-- C9: on a mapping minibatch with at least one relation and an unrecognized
format tag, the unsupported-format error is raised only after
`minibatch.negative_head` and `minibatch.negative_tail` have been replaced by
fresh empty mappings (line 65 runs before the loop), so the failing transform
does not leave the minibatch unchanged: the error path is not atomic. -/
theorem C9_error_not_atomic (self : NegativeSampler) (gen : Gen) (tag : String)
    (hfmt : self.output_format = LinkPredictionEdgeFormat.other tag)
    (e : String) (pp : Tensor × Tensor) (rest : List (String × Tensor × Tensor))
    (mb : MiniBatch)
    (hnp : mb.node_pair = some (PairField.mapping ((e, pp) :: rest))) :
    ∃ mbErr, self._sample gen mb =
        Except.error ("TypeError: Unsupported output format.", mbErr) ∧
      mbErr.negative_head = some (NegField.mapping []) ∧
      mbErr.negative_tail = some (NegField.mapping []) ∧
      mbErr.node_pair = mb.node_pair ∧ mbErr.label = mb.label ∧
      mbErr.otherFields = mb.otherFields ∧
      (mb.negative_head ≠ some (NegField.mapping []) → mbErr ≠ mb) := by
  refine ⟨{ mb with negative_head := some (NegField.mapping []),
                    negative_tail := some (NegField.mapping []) },
    sample_unknown_mapping_error self gen tag hfmt e pp rest mb hnp,
    rfl, rfl, rfl, rfl, rfl, ?_⟩
  intro hne heq
  exact hne (by rw [← heq])

def genW9 : Gen := fun _ _ => ([5], [6])

def mbW9 : MiniBatch :=
  { node_pair := some (PairField.mapping [("A", [1], [2])]),
    label := none, negative_head := none, negative_tail := none, otherFields := 7 }

theorem C9_witness :
    ∃ mbErr, NegativeSampler._sample ⟨1, LinkPredictionEdgeFormat.other ("Y")⟩ genW9 mbW9 =
        Except.error ("TypeError: Unsupported output format.", mbErr) ∧
      mbErr.negative_head = some (NegField.mapping []) ∧
      mbErr.negative_tail = some (NegField.mapping []) ∧
      mbErr.node_pair = mbW9.node_pair ∧ mbErr.label = mbW9.label ∧
      mbErr.otherFields = mbW9.otherFields ∧
      (mbW9.negative_head ≠ some (NegField.mapping []) → mbErr ≠ mbW9) :=
  C9_error_not_atomic ⟨1, LinkPredictionEdgeFormat.other ("Y")⟩ genW9 ("Y") rfl
    "A" ([1], [2]) [] mbW9 rfl

/-- C5: a successful transform touches only the fields of the selected
format: the opaque remainder of the minibatch is always untouched; under
INDEPENDENT the negative head/tail fields are never written; under the three
conditioned formats `node_pair` and `label` are left exactly as on entry. -/
theorem C5_frame (self : NegativeSampler) (gen : Gen) (mb mb' : MiniBatch)
    (h : self._sample gen mb = Except.ok mb') :
    mb'.otherFields = mb.otherFields ∧
    (self.output_format = LinkPredictionEdgeFormat.INDEPENDENT →
      mb'.negative_head = mb.negative_head ∧ mb'.negative_tail = mb.negative_tail) ∧
    ((self.output_format = LinkPredictionEdgeFormat.CONDITIONED ∨
      self.output_format = LinkPredictionEdgeFormat.HEAD_CONDITIONED ∨
      self.output_format = LinkPredictionEdgeFormat.TAIL_CONDITIONED) →
      mb'.node_pair = mb.node_pair ∧ mb'.label = mb.label) := by
  rw [NegativeSampler._sample] at h
  cases hn : mb.node_pair with
  | none => rw [hn] at h; simp at h
  | some pf =>
    cases pf with
    | single src dst =>
      rw [hn] at h
      dsimp only at h
      obtain ⟨c1, c2, c3⟩ := collate_frame self mb (gen none (src, dst)) none mb' h
      refine ⟨c1, c2, fun hd => ?_⟩
      obtain ⟨x1, x2⟩ := c3 (by
        rcases hd with hx | hx | hx <;> (rw [hx]; simp))
      exact ⟨x1.trans hn, x2⟩
    | mapping ps =>
      rw [hn] at h
      dsimp only at h
      by_cases hf : self.output_format = LinkPredictionEdgeFormat.INDEPENDENT
      · rw [if_pos hf] at h
        cases hl : sampleLoop self gen
            { node_pair := some (PairField.mapping ps),
              label := some (LabelField.mapping []),
              negative_head := mb.negative_head,
              negative_tail := mb.negative_tail,
              otherFields := mb.otherFields } ps with
        | error err => rw [hl] at h; simp at h
        | ok mb1 =>
          rw [hl] at h
          dsimp only at h
          rw [hf] at h
          rw [if_neg (by decide), if_neg (by decide)] at h
          simp only [Except.ok.injEq] at h
          subst h
          obtain ⟨l1, l2, l3⟩ := sampleLoop_frame self gen ps _ mb1 hl
          refine ⟨l1, fun _ => l2 hf, fun hd => ?_⟩
          rcases hd with hx | hx | hx <;> (rw [hx] at hf; exact absurd hf (by decide))
      · rw [if_neg hf] at h
        cases hl : sampleLoop self gen
            { node_pair := some (PairField.mapping ps),
              label := mb.label,
              negative_head := some (NegField.mapping []),
              negative_tail := some (NegField.mapping []),
              otherFields := mb.otherFields } ps with
        | error err => rw [hl] at h; simp at h
        | ok mb1 =>
          rw [hl] at h
          dsimp only at h
          obtain ⟨l1, l2, l3⟩ := sampleLoop_frame self gen ps _ mb1 hl
          obtain ⟨b1, b2⟩ := l3 hf
          by_cases hh : self.output_format = LinkPredictionEdgeFormat.HEAD_CONDITIONED
          · rw [if_pos hh, if_neg (by rw [hh]; decide)] at h
            simp only [Except.ok.injEq] at h
            subst h
            exact ⟨l1, fun hi => absurd hi hf, fun _ => ⟨b1, b2⟩⟩
          · rw [if_neg hh] at h
            by_cases ht : self.output_format = LinkPredictionEdgeFormat.TAIL_CONDITIONED
            · rw [if_pos ht] at h
              simp only [Except.ok.injEq] at h
              subst h
              exact ⟨l1, fun hi => absurd hi hf, fun _ => ⟨b1, b2⟩⟩
            · rw [if_neg ht] at h
              simp only [Except.ok.injEq] at h
              subst h
              exact ⟨l1, fun hi => absurd hi hf, fun _ => ⟨b1, b2⟩⟩

def genW5 : Gen := fun _ _ => ([9], [8])

def mbW5 : MiniBatch :=
  { node_pair := some (PairField.single [1] [2]),
    label := some (LabelField.single [1]),
    negative_head := none, negative_tail := none, otherFields := 42 }

def mbW5out : MiniBatch :=
  { node_pair := some (PairField.single [1] [2]),
    label := some (LabelField.single [1]),
    negative_head := some (NegField.single [[9]]),
    negative_tail := some (NegField.single [[8]]),
    otherFields := 42 }

theorem C5_witness :
    mbW5out.otherFields = mbW5.otherFields ∧
    ((⟨1, LinkPredictionEdgeFormat.CONDITIONED⟩ : NegativeSampler).output_format =
        LinkPredictionEdgeFormat.INDEPENDENT →
      mbW5out.negative_head = mbW5.negative_head ∧
      mbW5out.negative_tail = mbW5.negative_tail) ∧
    (((⟨1, LinkPredictionEdgeFormat.CONDITIONED⟩ : NegativeSampler).output_format =
        LinkPredictionEdgeFormat.CONDITIONED ∨
      (⟨1, LinkPredictionEdgeFormat.CONDITIONED⟩ : NegativeSampler).output_format =
        LinkPredictionEdgeFormat.HEAD_CONDITIONED ∨
      (⟨1, LinkPredictionEdgeFormat.CONDITIONED⟩ : NegativeSampler).output_format =
        LinkPredictionEdgeFormat.TAIL_CONDITIONED) →
      mbW5out.node_pair = mbW5.node_pair ∧ mbW5out.label = mbW5.label) :=
  C5_frame ⟨1, LinkPredictionEdgeFormat.CONDITIONED⟩ genW5 mbW5 mbW5out (by decide)

/-- C10: the transform's outcome is fully determined by `node_pair`, the
generator and the construction parameters: two minibatches agreeing on
`node_pair` yield related results — the same error message on failure, and on
success outputs agreeing on `node_pair`, on `label` under INDEPENDENT, and on
`negative_head`/`negative_tail` under every other format — whatever values
those output fields held before the call. -/
theorem C10_output_determined (self : NegativeSampler) (gen : Gen) (a b : MiniBatch)
    (hnp : a.node_pair = b.node_pair) :
    ResultRel self.output_format (self._sample gen a) (self._sample gen b) := by
  rw [NegativeSampler._sample, NegativeSampler._sample, ← hnp]
  cases hn : a.node_pair with
  | none => exact rfl
  | some pf =>
    cases pf with
    | single src dst =>
      dsimp only
      exact collate_congr_single self (gen none (src, dst)) a b hnp
    | mapping ps =>
      dsimp only
      by_cases hf : self.output_format = LinkPredictionEdgeFormat.INDEPENDENT
      · rw [if_pos hf, if_pos hf]
        have hview0 : SameView self.output_format
            { node_pair := some (PairField.mapping ps),
              label := some (LabelField.mapping []),
              negative_head := a.negative_head, negative_tail := a.negative_tail,
              otherFields := a.otherFields }
            { node_pair := some (PairField.mapping ps),
              label := some (LabelField.mapping []),
              negative_head := b.negative_head, negative_tail := b.negative_tail,
              otherFields := b.otherFields } :=
          ⟨rfl, fun _ => rfl, fun hne => absurd hf hne⟩
        have hrel := sampleLoop_congr self gen ps _ _ hview0
        cases hla : sampleLoop self gen
            { node_pair := some (PairField.mapping ps),
              label := some (LabelField.mapping []),
              negative_head := a.negative_head, negative_tail := a.negative_tail,
              otherFields := a.otherFields } ps with
        | error ea =>
          obtain ⟨m1, s1⟩ := ea
          cases hlb : sampleLoop self gen
              { node_pair := some (PairField.mapping ps),
                label := some (LabelField.mapping []),
                negative_head := b.negative_head, negative_tail := b.negative_tail,
                otherFields := b.otherFields } ps with
          | error eb =>
            obtain ⟨m2, s2⟩ := eb
            rw [hla, hlb] at hrel
            exact hrel
          | ok mb1b =>
            rw [hla, hlb] at hrel
            exact (show False from hrel).elim
        | ok mb1a =>
          cases hlb : sampleLoop self gen
              { node_pair := some (PairField.mapping ps),
                label := some (LabelField.mapping []),
                negative_head := b.negative_head, negative_tail := b.negative_tail,
                otherFields := b.otherFields } ps with
          | error eb =>
            obtain ⟨m2, s2⟩ := eb
            rw [hla, hlb] at hrel
            exact (show False from hrel).elim
          | ok mb1b =>
            rw [hla, hlb] at hrel
            have hsv : SameView self.output_format mb1a mb1b := hrel
            dsimp only
            rw [hf]
            rw [if_neg (by decide), if_neg (by decide), if_neg (by decide),
              if_neg (by decide)]
            exact hf ▸ hsv
      · rw [if_neg hf, if_neg hf]
        have hview0 : SameView self.output_format
            { node_pair := some (PairField.mapping ps),
              label := a.label,
              negative_head := some (NegField.mapping []),
              negative_tail := some (NegField.mapping []),
              otherFields := a.otherFields }
            { node_pair := some (PairField.mapping ps),
              label := b.label,
              negative_head := some (NegField.mapping []),
              negative_tail := some (NegField.mapping []),
              otherFields := b.otherFields } :=
          ⟨rfl, fun hi => absurd hi hf, fun _ => ⟨rfl, rfl⟩⟩
        have hrel := sampleLoop_congr self gen ps _ _ hview0
        cases hla : sampleLoop self gen
            { node_pair := some (PairField.mapping ps),
              label := a.label,
              negative_head := some (NegField.mapping []),
              negative_tail := some (NegField.mapping []),
              otherFields := a.otherFields } ps with
        | error ea =>
          obtain ⟨m1, s1⟩ := ea
          cases hlb : sampleLoop self gen
              { node_pair := some (PairField.mapping ps),
                label := b.label,
                negative_head := some (NegField.mapping []),
                negative_tail := some (NegField.mapping []),
                otherFields := b.otherFields } ps with
          | error eb =>
            obtain ⟨m2, s2⟩ := eb
            rw [hla, hlb] at hrel
            exact hrel
          | ok mb1b =>
            rw [hla, hlb] at hrel
            exact (show False from hrel).elim
        | ok mb1a =>
          cases hlb : sampleLoop self gen
              { node_pair := some (PairField.mapping ps),
                label := b.label,
                negative_head := some (NegField.mapping []),
                negative_tail := some (NegField.mapping []),
                otherFields := b.otherFields } ps with
          | error eb =>
            obtain ⟨m2, s2⟩ := eb
            rw [hla, hlb] at hrel
            exact (show False from hrel).elim
          | ok mb1b =>
            rw [hla, hlb] at hrel
            have hsv : SameView self.output_format mb1a mb1b := hrel
            dsimp only
            by_cases hh : self.output_format = LinkPredictionEdgeFormat.HEAD_CONDITIONED
            · rw [if_pos hh, if_pos hh, if_neg (by rw [hh]; decide),
                if_neg (by rw [hh]; decide)]
              exact ⟨hsv.1, fun hi => absurd hi hf,
                fun hne => ⟨(hsv.2.2 hne).1, rfl⟩⟩
            · rw [if_neg hh, if_neg hh]
              by_cases ht : self.output_format = LinkPredictionEdgeFormat.TAIL_CONDITIONED
              · rw [if_pos ht, if_pos ht]
                exact ⟨hsv.1, fun hi => absurd hi hf,
                  fun hne => ⟨rfl, (hsv.2.2 hne).2⟩⟩
              · rw [if_neg ht, if_neg ht]
                exact hsv

def genW10 : Gen := fun _ _ => ([9], [8])

def mbW10a : MiniBatch :=
  { node_pair := some (PairField.single [1] [2]),
    label := some (LabelField.single [5, 5]),
    negative_head := some (NegField.single [[1]]),
    negative_tail := none, otherFields := 0 }

def mbW10b : MiniBatch :=
  { node_pair := some (PairField.single [1] [2]),
    label := none, negative_head := none,
    negative_tail := some (NegField.mapping [("Z", none)]), otherFields := 3 }

theorem C10_witness :
    ResultRel (LinkPredictionEdgeFormat.INDEPENDENT)
      (NegativeSampler._sample ⟨1, LinkPredictionEdgeFormat.INDEPENDENT⟩ genW10 mbW10a)
      (NegativeSampler._sample ⟨1, LinkPredictionEdgeFormat.INDEPENDENT⟩ genW10 mbW10b) :=
  C10_output_determined ⟨1, LinkPredictionEdgeFormat.INDEPENDENT⟩ genW10
    mbW10a mbW10b (by decide)
